import Mathlib

/-!
# toctoc: a port knocker

Shallow embedding of `src/toctoc/toctoc.c`.

The program is sequential C that talks to the operating system.  The
embedding makes every call into the C library an `Event` of a trace, in
program order, and takes the answers of the operating system from an
environment `Env`: one answer for each call the program can make.  `main` is
then a pure function from the command line and the environment to the trace
and the exit status.

Integers: a C `int` is an `Int` (signed overflow is undefined in C and is not
given a meaning here); a conversion to an unsigned type is an explicit
remainder (`uint16_t` for `htons`, `useconds_t` for `usleep`).
-/

namespace Toctoc

/-! ## Constants of the system headers (values of Linux) -/

def PF_UNSPEC : Int := 0
def PF_INET : Int := 2
def PF_INET6 : Int := 10
def SOCK_STREAM : Int := 1
def SOCK_DGRAM : Int := 2
def AI_ADDRCONFIG : Int := 32
def EINPROGRESS : Int := 115

/-! ## Data -/

/-- The C `struct timeval`. -/
structure timeval where
  tv_sec : Int
  tv_usec : Int
deriving DecidableEq, Repr

/-- A socket address (`struct sockaddr_in` or `struct sockaddr_in6`): the
family, the 16-bit port field `sin_port` / `sin6_port` as its two bytes in
memory order, and the bytes of the host address. -/
structure sockaddr where
  sa_family : Int
  port : Nat × Nat
  host : List Nat
deriving DecidableEq, Repr

/-- The C `struct addrinfo` (one node of the list; `ai_next` is the tail of
the Lean list that holds the nodes). -/
structure addrinfo where
  ai_flags : Int
  ai_family : Int
  ai_socktype : Int
  ai_protocol : Int
  ai_addrlen : Nat
  ai_addr : sockaddr
deriving DecidableEq, Repr

/-- The record `struct toctoc_state_s`.  `res_ptr` is not a field here: the
node it points to is passed to the loop body, which hands back the node as
the body left it. -/
structure toctoc_state_s where
  hostname : String
  ports : List String
  ports_cnt : Nat
  delay_ms : Int
  fdset : List Int
  tv : timeval
  sock : Int
  hints : addrinfo
  results_ptr : List addrinfo
deriving DecidableEq, Repr

/-- The static `state` before `main` runs: zero-initialised storage. -/
def state : toctoc_state_s :=
  { hostname := "", ports := [], ports_cnt := 0, delay_ms := 0, fdset := [],
    tv := { tv_sec := 0, tv_usec := 0 }, sock := 0,
    hints := { ai_flags := 0, ai_family := 0, ai_socktype := 0, ai_protocol := 0,
               ai_addrlen := 0, ai_addr := { sa_family := 0, port := (0, 0), host := [] } },
    results_ptr := [] }

/-- One call into the C library, with the arguments the program passes.
`socket` also records the descriptor it returned. -/
inductive Event where
  | stdout (text : String)
  | stderr (text : String)
  | perror (text : String)
  | getaddrinfo (node : String) (hints : addrinfo)
  | getnameinfo (sa : sockaddr) (salen : Nat)
  | socket (domain type protocol : Int) (ret : Int)
  | fcntl (fd : Int)
  | connect (fd : Int) (addr : sockaddr) (len : Nat)
  | select (nfds : Int) (writefds : List Int) (timeout : timeval)
  | sendto (fd : Int) (len : Nat) (dest : sockaddr) (addrlen : Nat)
  | close (fd : Int)
  | usleep (usec : Nat)
  | freeaddrinfo
deriving DecidableEq, Repr

/-- What `select` leaves behind: its return value and the two objects it was
given by pointer and may write to, the descriptor set and the timeout. -/
structure select_result where
  ret : Int
  writefds : List Int
  timeout : timeval
deriving DecidableEq, Repr

/-- The answers of the operating system.  `getnameinfo` is asked once per
resolved address, by its position in the list; `socket`, `connect`, `select`
and `sendto` at most once per resolved address and port, by the two
positions.  `connect` answers its return value and `errno`. -/
structure Env where
  getaddrinfo : String → addrinfo → Int × List addrinfo
  getnameinfo : Nat → Int × String
  socket : Nat → Nat → Int
  connect : Nat → Nat → Int × Int
  select : Nat → Nat → List Int → timeval → select_result
  sendto : Nat → Nat → Int

/-- What the calls of `getopt(argc, argv, "46h?ud:t:")` return in one run:
the option characters with their `optarg`, in order, up to the call that
returns -1, and `optind` after that call. -/
structure GetoptRun where
  rets : List (Char × String)
  optind : Nat

/-- The outcome of a run: the trace and the exit status. -/
structure Run where
  trace : List Event
  status : Int
deriving DecidableEq, Repr

/-! ## The C library functions that compute -/

/-- The C `isspace` on the characters of the C locale. -/
def isspace (c : Char) : Bool :=
  c.toNat = 32 || (9 ≤ c.toNat && c.toNat ≤ 13)

/-- The digits of `atoi`: accumulate decimal digits, stop at the first other
character. -/
def atoi_digits : Int → List Char → Int
  | acc, [] => acc
  | acc, c :: cs =>
    if 48 ≤ c.toNat ∧ c.toNat ≤ 57 then atoi_digits (acc * 10 + ((c.toNat : Int) - 48)) cs
    else acc

/-- The optional sign of `atoi`. -/
def atoi_sign : List Char → Int
  | [] => 0
  | c :: cs =>
    if c = '-' then - atoi_digits 0 cs
    else if c = '+' then atoi_digits 0 cs
    else atoi_digits 0 (c :: cs)

/-- The leading white space of `atoi`. -/
def atoi_space : List Char → Int
  | [] => 0
  | c :: cs => if isspace c then atoi_space cs else atoi_sign (c :: cs)

/-- The C `atoi`: white space, an optional sign, decimal digits. -/
def atoi (s : String) : Int := atoi_space s.toList

/-- The C `htons` on an `int` argument: the argument is converted to
`uint16_t` and the result holds the high byte first in memory. -/
def htons (v : Int) : Nat × Nat :=
  ((v % 65536).toNat / 256, (v % 65536).toNat % 256)

/-! ## The program -/

def usage : List Event :=
  [Event.stdout "Usage: toctoc [-u] [-4] [-6] [-t timeout_ms] [-d delay_ms] hostname port1 [port2] ... [portN]\n"]

def print_ports : List String → List Event
  | [] => []
  | p :: ps => Event.stdout ("port=" ++ p ++ "\n") :: print_ports ps

def print_args (s : toctoc_state_s) : List Event :=
  Event.stdout ("hostname=" ++ s.hostname ++ " proto="
      ++ (if s.hints.ai_socktype = SOCK_DGRAM then "udp" else "tcp")
      ++ " timeout=" ++ toString (Int.tdiv s.tv.tv_usec 1000) ++ "ms delay="
      ++ toString s.delay_ms ++ "ms\n")
    :: print_ports (s.ports.take s.ports_cnt)

def set_defaults (s : toctoc_state_s) : toctoc_state_s :=
  { s with
    hints := { s.hints with ai_socktype := SOCK_STREAM, ai_flags := AI_ADDRCONFIG,
                            ai_family := PF_UNSPEC },
    tv := { tv_sec := 0, tv_usec := 200 * 1000 },
    delay_ms := 200 }

/-- The `switch` of `parse_args` on one option character. -/
def parse_opt (s : toctoc_state_s) (ch : Char) (optarg : String) :
    toctoc_state_s × List Event :=
  if ch = '4' then ({ s with hints := { s.hints with ai_family := PF_INET } }, [])
  else if ch = '6' then ({ s with hints := { s.hints with ai_family := PF_INET6 } }, [])
  else if ch = 'u' then ({ s with hints := { s.hints with ai_socktype := SOCK_DGRAM } }, [])
  else if ch = 't' then ({ s with tv := { s.tv with tv_usec := atoi optarg * 1000 } }, [])
  else if ch = 'd' then ({ s with delay_ms := atoi optarg }, [])
  else (s, usage)

/-- The `while` loop of `parse_args` over what `getopt` returns. -/
def parse_opts : List (Char × String) → toctoc_state_s → toctoc_state_s × List Event
  | [], s => (s, [])
  | (ch, optarg) :: rest, s =>
    let r := parse_opt s ch optarg
    let r2 := parse_opts rest r.1
    (r2.1, r.2 ++ r2.2)

/-- `parse_args`: `Except.error` is `exit(1)`, with what was printed before;
`Except.ok` is the return, with the state and what was printed. -/
def parse_args (argv : List String) (g : GetoptRun) (s : toctoc_state_s) :
    Except (List Event) (toctoc_state_s × List Event) :=
  let r := parse_opts g.rets s
  let argc : Int := (argv.length : Int) - (g.optind : Int)
  let argv := argv.drop g.optind
  if argc < 2 then
    Except.error (r.2 ++ [Event.stderr "Missing hostname and/or port(s)\n"] ++ usage)
  else
    Except.ok ({ r.1 with hostname := argv.getD 0 "",
                          ports_cnt := (argc - 1).toNat,
                          ports := argv.drop 1 }, r.2)

/-- Lines 156-162: overwrite the port field of the address of the node. -/
def set_port (res : addrinfo) (port : String) : addrinfo :=
  if res.ai_family = PF_INET then
    { res with ai_addr := { res.ai_addr with port := htons (atoi port) } }
  else if res.ai_family = PF_INET6 then
    { res with ai_addr := { res.ai_addr with port := htons (atoi port) } }
  else res

/-- From the label `close_sock` to the end of the loop body.  The loop body
runs only when `ports_cnt` is at least 1, so `ports_cnt - 1` does not wrap. -/
def close_sock (cnt : Nat) (s : toctoc_state_s) : List Event :=
  Event.close s.sock ::
    (if cnt ≠ s.ports_cnt - 1 then [Event.usleep (s.delay_ms * 1000 % 4294967296).toNat]
     else [])

/-- The body of the loop over the ports (lines 148-196), for the resolved
address at position `ti` and the port at position `cnt`. -/
def knock (env : Env) (ti cnt : Nat) (s : toctoc_state_s) (res : addrinfo) :
    toctoc_state_s × addrinfo × List Event :=
  let s := { s with sock := env.socket ti cnt }
  let ev := Event.socket res.ai_family res.ai_socktype res.ai_protocol s.sock
  if s.sock < 0 then
    (s, res, [ev, Event.perror "unable to open allocate socket"])
  else
    let res := set_port res (s.ports.getD cnt "")
    if res.ai_socktype = SOCK_STREAM then
      let pre := [ev, Event.stdout ("\tport=" ++ s.ports.getD cnt "" ++ "/T\n"),
                  Event.fcntl s.sock,
                  Event.connect s.sock res.ai_addr res.ai_addrlen]
      if (env.connect ti cnt).1 ≠ 0 ∧ (env.connect ti cnt).2 ≠ EINPROGRESS then
        (s, res, pre ++ [Event.perror "unable to connect"] ++ close_sock cnt s)
      else
        let s := { s with fdset := [s.sock] }
        let r := env.select ti cnt s.fdset s.tv
        let s2 := { s with fdset := r.writefds, tv := r.timeout }
        (s2, res, pre ++ [Event.select (s.sock + 1) s.fdset s.tv] ++ close_sock cnt s2)
    else if res.ai_socktype = SOCK_DGRAM then
      let pre := [ev, Event.stdout ("\tport=" ++ s.ports.getD cnt "" ++ "/U\n"),
                  Event.sendto s.sock 0 res.ai_addr res.ai_addrlen]
      if env.sendto ti cnt < 0 then
        (s, res, pre ++ [Event.perror "unable to sendto"] ++ close_sock cnt s)
      else
        (s, res, pre ++ close_sock cnt s)
    else
      (s, res, ev :: close_sock cnt s)

/-- The loop `for (cnt = ...; cnt < state.ports_cnt; cnt++)` with `k`
iterations left, that is `k = ports_cnt - cnt`. -/
def knock_ports (env : Env) (ti : Nat) :
    Nat → Nat → toctoc_state_s → addrinfo → toctoc_state_s × addrinfo × List Event
  | 0, _, s, res => (s, res, [])
  | k + 1, cnt, s, res =>
    let r := knock env ti cnt s res
    let r2 := knock_ports env ti k (cnt + 1) r.1 r.2.1
    (r2.1, r2.2.1, r.2.2 ++ r2.2.2)

/-- The body of the loop over the resolved addresses (lines 140-197). -/
def knock_target (env : Env) (ti : Nat) (s : toctoc_state_s) (res : addrinfo) :
    toctoc_state_s × List Event :=
  let ev := Event.getnameinfo res.ai_addr res.ai_addrlen
  if (env.getnameinfo ti).1 ≠ 0 then
    (s, [ev, Event.perror "unable to get name info"])
  else
    let r := knock_ports env ti s.ports_cnt 0 s res
    (r.1, [ev, Event.stdout ("knocking hostname=" ++ s.hostname ++ " address="
                 ++ (env.getnameinfo ti).2 ++ "\n")] ++ r.2.2)

/-- The loop over the resolved addresses, from the node at position `ti`:
the events of each address, one list per address. -/
def knock_targets (env : Env) :
    Nat → List addrinfo → toctoc_state_s → toctoc_state_s × List (List Event)
  | _, [], s => (s, [])
  | ti, res :: rest, s =>
    let r := knock_target env ti s res
    let r2 := knock_targets env (ti + 1) rest r.1
    (r2.1, r.2 :: r2.2)

/-- The handler registered with `atexit`. -/
def on_exit_cb : List Event := [Event.freeaddrinfo]

/-- The function `main`.  `exit(1)` and `return 0` both run the `atexit`
handler. -/
def main (argv : List String) (g : GetoptRun) (env : Env) : Run :=
  match parse_args argv g (set_defaults state) with
  | Except.error out => { trace := out ++ on_exit_cb, status := 1 }
  | Except.ok (s, out) =>
    let pre := out ++ print_args s ++ [Event.getaddrinfo s.hostname s.hints]
    let r := env.getaddrinfo s.hostname s.hints
    if r.1 ≠ 0 then
      { trace := pre ++ [Event.perror "unable to get address info"] ++ on_exit_cb,
        status := 1 }
    else
      let s := { s with results_ptr := r.2 }
      let k := knock_targets env 0 s.results_ptr s
      { trace := pre ++ k.2.flatten ++ on_exit_cb, status := 0 }

/-! ## Views of a trace -/

/-- The events that only print. -/
def is_output : Event → Bool
  | Event.stdout _ => true
  | Event.stderr _ => true
  | Event.perror _ => true
  | _ => false

/-- The calls of a trace: what is left when the printing is taken out. -/
def calls (tr : List Event) : List Event := tr.filter (fun e => !is_output e)

/-- The network operations. -/
def is_network : Event → Bool
  | Event.getaddrinfo _ _ => true
  | Event.socket _ _ _ _ => true
  | Event.connect _ _ _ => true
  | Event.select _ _ _ => true
  | Event.sendto _ _ _ _ => true
  | _ => false

def is_socket : Event → Bool
  | Event.socket _ _ _ _ => true
  | _ => false

/-- A call of `socket` that returned a descriptor. -/
def is_opened : Event → Bool
  | Event.socket _ _ _ ret => decide (0 ≤ ret)
  | _ => false

/-- The number of sockets a trace opens. -/
def opened (tr : List Event) : Nat := tr.countP is_opened

def dest_of : Event → Option sockaddr
  | Event.connect _ addr _ => some addr
  | Event.sendto _ _ dest _ => some dest
  | _ => none

/-- The destination addresses of the `connect` and `sendto` calls of a
trace, in order. -/
def dests (tr : List Event) : List sockaddr := tr.filterMap dest_of

def sleep_of : Event → Option Nat
  | Event.usleep usec => some usec
  | _ => none

/-- The durations of the `usleep` calls of a trace, in order. -/
def sleeps (tr : List Event) : List Nat := tr.filterMap sleep_of

def timeout_of : Event → Option timeval
  | Event.select _ _ timeout => some timeout
  | _ => none

/-- The timeouts of the `select` calls of a trace, in order. -/
def select_timeouts (tr : List Event) : List timeval := tr.filterMap timeout_of

/-- One step of the socket discipline.  The state is the descriptor that is
open, if any.  `socket` needs no descriptor open, and opens one when it
succeeds; `close` needs its argument to be the open descriptor; any other
call on a descriptor needs that descriptor open.  `none` is a violation. -/
def sock_step (cur : Option Int) : Event → Option (Option Int)
  | Event.socket _ _ _ ret =>
    if cur = none then (if 0 ≤ ret then some (some ret) else some none) else none
  | Event.close fd => if cur = some fd then some none else none
  | Event.fcntl fd => if cur = some fd then some cur else none
  | Event.connect fd _ _ => if cur = some fd then some cur else none
  | Event.select _ fds _ => if fds = cur.toList then some cur else none
  | Event.sendto fd _ _ _ => if cur = some fd then some cur else none
  | _ => some cur

/-- The socket discipline along a trace. -/
def sock_scan : Option Int → List Event → Option (Option Int)
  | cur, [] => some cur
  | cur, e :: tr =>
    match sock_step cur e with
    | none => none
    | some cur2 => sock_scan cur2 tr

def resolve_of : Event → Option (String × addrinfo)
  | Event.getaddrinfo node hints => some (node, hints)
  | _ => none

/-- The host names and hints of the `getaddrinfo` calls of a trace, in
order. -/
def resolutions (tr : List Event) : List (String × addrinfo) := tr.filterMap resolve_of

/-- The number that two bytes in network order (high byte first) stand for. -/
def port_value (b : Nat × Nat) : Nat := b.1 * 256 + b.2

/-- The address family that a sequence of option characters asks for, in the
words of the specification: the last `-4` or `-6` of the sequence decides,
IPv4 only for `-4` and IPv6 only for `-6`; with neither, the family is
unspecified. -/
def family_of_options (opts : List Char) : Int :=
  match opts.reverse.find? (fun c => c = '4' || c = '6') with
  | some c => if c = '4' then PF_INET else PF_INET6
  | none => PF_UNSPEC

/-! ## Relations used in the proofs -/

/-- The fields of the state that the knock sequence only reads. -/
def same_cfg (s s2 : toctoc_state_s) : Prop :=
  s2.hostname = s.hostname ∧ s2.ports = s.ports ∧ s2.ports_cnt = s.ports_cnt ∧
  s2.delay_ms = s.delay_ms ∧ s2.hints = s.hints

/-- The node as an earlier iteration may have left it: any port written to
it is overwritten by the next one. -/
def port_equiv (r0 r : addrinfo) : Prop := ∀ p, set_port r p = set_port r0 p

/-! ## Inputs of the examples -/

/-- A resolved IPv4 address for the examples. -/
def target_v4 (socktype : Int) : addrinfo :=
  { ai_flags := 0, ai_family := PF_INET, ai_socktype := socktype, ai_protocol := 0,
    ai_addrlen := 16, ai_addr := { sa_family := 2, port := (0, 0), host := [192, 0, 2, 1] } }

/-- An environment in which every call succeeds: one IPv4 address of the
socket type asked for, descriptor 3, `connect` in progress, `select` ready,
the timeout left as it was. -/
def env_ok : Env :=
  { getaddrinfo := fun _ hints => (0, [target_v4 hints.ai_socktype]),
    getnameinfo := fun _ => (0, "192.0.2.1"),
    socket := fun _ _ => 3,
    connect := fun _ _ => (-1, EINPROGRESS),
    select := fun _ _ fds tv => { ret := 1, writefds := fds, timeout := tv },
    sendto := fun _ _ => 0 }

/-- The environment `env_ok`, except that `getnameinfo` fails. -/
def env_noname : Env := { env_ok with getnameinfo := fun _ => (-1, "") }

/-- The command line `toctoc example.test 80 81`. -/
def argv_two : List String := ["toctoc", "example.test", "80", "81"]

/-- What `getopt` returns on a command line without options. -/
def getopt_none : GetoptRun := { rets := [], optind := 1 }

/-- The state `parse_args` returns on `argv_two`. -/
def state_two : toctoc_state_s :=
  { set_defaults state with hostname := "example.test", ports := ["80", "81"], ports_cnt := 2 }

/-- The environment `env_ok`, except that the socket for the first port of
each target cannot be allocated. -/
def env_nosock : Env := { env_ok with socket := fun _ cnt => if cnt = 0 then -1 else 3 }

/-- The command line `toctoc example.test`: a hostname and no port. -/
def argv_noport : List String := ["toctoc", "example.test"]

/-- The environment `env_ok`, except that resolution fails. -/
def env_unresolved : Env := { env_ok with getaddrinfo := fun _ _ => (-2, []) }

/-- The command line `toctoc -6 -t 50 -4 example.test 80`. -/
def argv_family : List String := ["toctoc", "-6", "-t", "50", "-4", "example.test", "80"]

/-- What `getopt` returns on `argv_family`. -/
def getopt_family : GetoptRun := { rets := [('6', ""), ('t', "50"), ('4', "")], optind := 5 }

/-- The state `parse_args` returns on `argv_family`. -/
def state_family : toctoc_state_s :=
  { set_defaults state with
    hostname := "example.test", ports := ["80"], ports_cnt := 1,
    tv := { tv_sec := 0, tv_usec := 50000 },
    hints := { (set_defaults state).hints with ai_family := PF_INET } }

/-- The command line `toctoc -u -d 0 example.test 53 80`. -/
def argv_udp : List String := ["toctoc", "-u", "-d", "0", "example.test", "53", "80"]

/-- What `getopt` returns on `argv_udp`. -/
def getopt_udp : GetoptRun := { rets := [('u', ""), ('d', "0")], optind := 4 }

/-- The state `parse_args` returns on `argv_udp`. -/
def state_udp : toctoc_state_s :=
  { set_defaults state with
    hostname := "example.test", ports := ["53", "80"], ports_cnt := 2, delay_ms := 0,
    hints := { (set_defaults state).hints with ai_socktype := SOCK_DGRAM } }

/-- The command line `toctoc -t 50 example.test 80 81`. -/
def argv_timeout : List String := ["toctoc", "-t", "50", "example.test", "80", "81"]

/-- What `getopt` returns on `argv_timeout`. -/
def getopt_timeout : GetoptRun := { rets := [('t', "50")], optind := 3 }

/-- The state `parse_args` returns on `argv_timeout`. -/
def state_timeout : toctoc_state_s :=
  { set_defaults state with
    hostname := "example.test", ports := ["80", "81"], ports_cnt := 2,
    tv := { tv_sec := 0, tv_usec := 50000 } }

/-- The environment `env_ok` with the `select` of Linux when nothing answers:
it returns 0 after the whole timeout and writes the time that is left, zero,
into the timeout it was given. -/
def env_linux : Env :=
  { env_ok with
    select := fun _ _ _ _ =>
      { ret := 0, writefds := [], timeout := { tv_sec := 0, tv_usec := 0 } } }

/-! # Theorems -/

/-! ## What the loop body leaves alone -/

theorem same_cfg_refl (s : toctoc_state_s) : same_cfg s s := by simp [same_cfg]

theorem same_cfg_trans {a b c : toctoc_state_s} (h1 : same_cfg a b) (h2 : same_cfg b c) :
    same_cfg a c := by
  simp only [same_cfg] at *
  obtain ⟨a1, a2, a3, a4, a5⟩ := h1
  obtain ⟨b1, b2, b3, b4, b5⟩ := h2
  exact ⟨b1.trans a1, b2.trans a2, b3.trans a3, b4.trans a4, b5.trans a5⟩

theorem knock_same_cfg (env : Env) (ti cnt : Nat) (s : toctoc_state_s) (res : addrinfo) :
    same_cfg s (knock env ti cnt s res).1 := by
  unfold knock same_cfg
  simp only
  split_ifs <;> simp

theorem knock_ports_same_cfg (env : Env) (ti : Nat) (k : Nat) :
    ∀ (cnt : Nat) (s : toctoc_state_s) (res : addrinfo),
      same_cfg s (knock_ports env ti k cnt s res).1 := by
  induction k with
  | zero => intro cnt s res; exact same_cfg_refl s
  | succ k ih =>
    intro cnt s res
    simp only [knock_ports]
    exact same_cfg_trans (knock_same_cfg env ti cnt s res) (ih _ _ _)

theorem knock_target_same_cfg (env : Env) (ti : Nat) (s : toctoc_state_s) (res : addrinfo) :
    same_cfg s (knock_target env ti s res).1 := by
  unfold knock_target
  simp only
  split_ifs
  · exact same_cfg_refl s
  · exact knock_ports_same_cfg env ti _ _ _ _

theorem knock_targets_same_cfg (env : Env) (targets : List addrinfo) :
    ∀ (ti : Nat) (s : toctoc_state_s), same_cfg s (knock_targets env ti targets s).1 := by
  induction targets with
  | nil => intro ti s; exact same_cfg_refl s
  | cons res rest ih =>
    intro ti s
    simp only [knock_targets]
    exact same_cfg_trans (knock_target_same_cfg env ti s res) (ih _ _)

/-! ## Printing is invisible to the views -/

theorem opened_append (a b : List Event) : opened (a ++ b) = opened a + opened b := by
  simp [opened]

theorem dests_append (a b : List Event) : dests (a ++ b) = dests a ++ dests b := by
  simp [dests]

theorem sleeps_append (a b : List Event) : sleeps (a ++ b) = sleeps a ++ sleeps b := by
  simp [sleeps]

theorem opened_of_output {l : List Event} (h : ∀ e ∈ l, is_output e = true) : opened l = 0 := by
  unfold opened
  rw [List.countP_eq_zero]
  intro e he
  have := h e he
  cases e <;> simp_all [is_output, is_opened]

theorem dests_of_output {l : List Event} (h : ∀ e ∈ l, is_output e = true) : dests l = [] := by
  unfold dests
  rw [List.filterMap_eq_nil_iff]
  intro e he
  have := h e he
  cases e <;> simp_all [is_output, dest_of]

theorem sleeps_of_output {l : List Event} (h : ∀ e ∈ l, is_output e = true) : sleeps l = [] := by
  unfold sleeps
  rw [List.filterMap_eq_nil_iff]
  intro e he
  have := h e he
  cases e <;> simp_all [is_output, sleep_of]

theorem usage_output : ∀ e ∈ usage, is_output e = true := by
  simp [usage, is_output]

theorem parse_opt_output (s : toctoc_state_s) (ch : Char) (optarg : String) :
    ∀ e ∈ (parse_opt s ch optarg).2, is_output e = true := by
  unfold parse_opt
  split_ifs <;> simp [usage, is_output]

theorem parse_opts_output (rets : List (Char × String)) :
    ∀ (s : toctoc_state_s), ∀ e ∈ (parse_opts rets s).2, is_output e = true := by
  induction rets with
  | nil => intro s e he; simp [parse_opts] at he
  | cons r rest ih =>
    intro s e he
    obtain ⟨ch, optarg⟩ := r
    simp only [parse_opts, List.mem_append] at he
    rcases he with he | he
    · exact parse_opt_output s ch optarg e he
    · exact ih _ e he

theorem print_ports_output (ps : List String) : ∀ e ∈ print_ports ps, is_output e = true := by
  induction ps with
  | nil => simp [print_ports]
  | cons p ps ih =>
    intro e he
    simp only [print_ports, List.mem_cons] at he
    rcases he with he | he
    · subst he; rfl
    · exact ih e he

theorem print_args_output (s : toctoc_state_s) : ∀ e ∈ print_args s, is_output e = true := by
  intro e he
  simp only [print_args, List.mem_cons] at he
  rcases he with he | he
  · subst he; rfl
  · exact print_ports_output _ e he

/-! ## What `parse_args` returns -/

theorem parse_args_ok {argv : List String} {g : GetoptRun} {s0 s : toctoc_state_s}
    {out : List Event} (h : parse_args argv g s0 = Except.ok (s, out)) :
    2 ≤ (argv.drop g.optind).length ∧
    s = { (parse_opts g.rets s0).1 with
            hostname := (argv.drop g.optind).getD 0 "",
            ports_cnt := (argv.drop g.optind).length - 1,
            ports := (argv.drop g.optind).drop 1 } ∧
    out = (parse_opts g.rets s0).2 := by
  unfold parse_args at h
  simp only at h
  split_ifs at h with hlt
  simp only [Except.ok.injEq, Prod.mk.injEq] at h
  obtain ⟨hs, hout⟩ := h
  have h2 : 2 ≤ (argv.drop g.optind).length := by
    simp only [List.length_drop]; omega
  refine ⟨h2, ?_, hout.symm⟩
  have : ((argv.length : Int) - (g.optind : Int) - 1).toNat = (argv.drop g.optind).length - 1 := by
    simp only [List.length_drop] at h2 ⊢; omega
  rw [← hs, this]

theorem parse_args_ports_cnt {argv : List String} {g : GetoptRun} {s0 s : toctoc_state_s}
    {out : List Event} (h : parse_args argv g s0 = Except.ok (s, out)) :
    s.ports_cnt = s.ports.length := by
  obtain ⟨h2, hs, -⟩ := parse_args_ok h
  rw [hs]
  simp only [List.length_drop]

/-! ## The sockets and the destinations of the knock sequence -/

theorem set_port_set_port (r : addrinfo) (p q : String) :
    set_port (set_port r p) q = set_port r q := by
  unfold set_port
  split_ifs <;> simp_all

theorem set_port_socktype (r : addrinfo) (p : String) :
    (set_port r p).ai_socktype = r.ai_socktype := by
  unfold set_port
  split_ifs <;> rfl

theorem knock_port_equiv (env : Env) (ti cnt : Nat) (s : toctoc_state_s) {r0 res : addrinfo}
    (h : port_equiv r0 res) : port_equiv r0 (knock env ti cnt s res).2.1 := by
  unfold knock
  simp only
  split_ifs <;> first | exact h | (intro p; rw [set_port_set_port]; exact h p)

theorem knock_opened (env : Env) (ti cnt : Nat) (s : toctoc_state_s) (res : addrinfo)
    (h : 0 ≤ env.socket ti cnt) : opened (knock env ti cnt s res).2.2 = 1 := by
  have h2 : ¬ env.socket ti cnt < 0 := by omega
  unfold knock
  simp only [h2, if_false]
  split_ifs <;> simp [opened, close_sock, is_opened, h, List.countP_cons]

theorem knock_dests (env : Env) (ti cnt : Nat) (s : toctoc_state_s) (res : addrinfo)
    (h : 0 ≤ env.socket ti cnt)
    (ht : res.ai_socktype = SOCK_STREAM ∨ res.ai_socktype = SOCK_DGRAM) :
    dests (knock env ti cnt s res).2.2 = [(set_port res (s.ports.getD cnt "")).ai_addr] := by
  have h2 : ¬ env.socket ti cnt < 0 := by omega
  have ht2 := set_port_socktype res (s.ports.getD cnt "")
  unfold knock
  simp only [h2, if_false]
  split_ifs <;> simp_all [dests, close_sock, dest_of]

theorem port_equiv_socktype {r0 r : addrinfo} (h : port_equiv r0 r) :
    r.ai_socktype = r0.ai_socktype := by
  have := congrArg addrinfo.ai_socktype (h "")
  rwa [set_port_socktype, set_port_socktype] at this

theorem knock_ports_opened (env : Env) (ti : Nat) (k : Nat) :
    ∀ (cnt : Nat) (s : toctoc_state_s) (res : addrinfo),
      (∀ c, cnt ≤ c → c < cnt + k → 0 ≤ env.socket ti c) →
      opened (knock_ports env ti k cnt s res).2.2 = k := by
  induction k with
  | zero => intro cnt s res _; rfl
  | succ k ih =>
    intro cnt s res h
    simp only [knock_ports, opened_append]
    rw [knock_opened env ti cnt s res (h cnt (le_refl _) (by omega)),
      ih (cnt + 1) _ _ (fun c h1 h2 => h c (by omega) (by omega))]
    omega

theorem knock_ports_dests (env : Env) (ti : Nat) (r0 : addrinfo)
    (ht : r0.ai_socktype = SOCK_STREAM ∨ r0.ai_socktype = SOCK_DGRAM) (ports : List String)
    (k : Nat) :
    ∀ (cnt : Nat) (s : toctoc_state_s) (res : addrinfo),
      s.ports = ports → port_equiv r0 res → cnt + k ≤ ports.length →
      (∀ c, cnt ≤ c → c < cnt + k → 0 ≤ env.socket ti c) →
      dests (knock_ports env ti k cnt s res).2.2
        = ((ports.drop cnt).take k).map (fun p => (set_port r0 p).ai_addr) := by
  induction k with
  | zero => intro cnt s res _ _ _ _; simp [knock_ports, dests]
  | succ k ih =>
    intro cnt s res hp he hlen h
    have hlt : cnt < ports.length := by omega
    simp only [knock_ports, dests_append]
    rw [knock_dests env ti cnt s res (h cnt (le_refl _) (by omega))
        (by rw [port_equiv_socktype he]; exact ht),
      ih (cnt + 1) _ _ ((knock_same_cfg env ti cnt s res).2.1.trans hp)
        (knock_port_equiv env ti cnt s he) (by omega)
        (fun c h1 h2 => h c (by omega) (by omega))]
    rw [he, hp]
    conv_rhs => rw [List.drop_eq_getElem_cons hlt]
    simp only [List.take_succ_cons, List.map_cons, List.singleton_append,
      List.getD_eq_getElem _ _ hlt]

theorem knock_target_opened (env : Env) (ti : Nat) (s : toctoc_state_s) (res : addrinfo)
    (hn : (env.getnameinfo ti).1 = 0) (h : ∀ c < s.ports_cnt, 0 ≤ env.socket ti c) :
    opened (knock_target env ti s res).2 = s.ports_cnt := by
  unfold knock_target
  simp only [hn, ne_eq, not_true_eq_false, if_false, opened_append]
  rw [knock_ports_opened env ti _ 0 s res (fun c _ h2 => h c (by omega))]
  simp [opened, is_opened]

theorem knock_target_dests (env : Env) (ti : Nat) (s : toctoc_state_s) (res : addrinfo)
    (ht : res.ai_socktype = SOCK_STREAM ∨ res.ai_socktype = SOCK_DGRAM)
    (hcnt : s.ports_cnt = s.ports.length)
    (hn : (env.getnameinfo ti).1 = 0) (h : ∀ c < s.ports_cnt, 0 ≤ env.socket ti c) :
    dests (knock_target env ti s res).2 = s.ports.map (fun p => (set_port res p).ai_addr) := by
  unfold knock_target
  simp only [hn, ne_eq, not_true_eq_false, if_false, dests_append]
  rw [knock_ports_dests env ti res ht s.ports _ 0 s res rfl (fun _ => rfl) (by omega)
    (fun c _ h2 => h c (by omega))]
  simp [dests, dest_of, hcnt]

theorem set_port_fields (r : addrinfo) (p : String) :
    (set_port r p).ai_family = r.ai_family ∧ (set_port r p).ai_protocol = r.ai_protocol ∧
    (set_port r p).ai_addrlen = r.ai_addrlen := by
  unfold set_port
  split_ifs <;> exact ⟨rfl, rfl, rfl⟩

theorem port_equiv_fields {r0 r : addrinfo} (h : port_equiv r0 r) :
    r.ai_family = r0.ai_family ∧ r.ai_protocol = r0.ai_protocol ∧
    r.ai_addrlen = r0.ai_addrlen := by
  obtain ⟨a1, a2, a3⟩ := set_port_fields r ""
  obtain ⟨b1, b2, b3⟩ := set_port_fields r0 ""
  have e := h ""
  exact ⟨by rw [← a1, e, b1], by rw [← a2, e, b2], by rw [← a3, e, b3]⟩

theorem knock_targets_opened (env : Env) (P : Nat) (targets : List addrinfo) :
    ∀ (ti : Nat) (s : toctoc_state_s), s.ports_cnt = P →
      (∀ i, ti ≤ i → i < ti + targets.length → (env.getnameinfo i).1 = 0) →
      (∀ i, ti ≤ i → i < ti + targets.length → ∀ c < P, 0 ≤ env.socket i c) →
      opened (knock_targets env ti targets s).2.flatten = targets.length * P := by
  induction targets with
  | nil => intro ti s _ _ _; simp [knock_targets, opened]
  | cons res rest ih =>
    intro ti s hP hn hs
    simp only [knock_targets, List.flatten_cons, opened_append, List.length_cons] at *
    rw [knock_target_opened env ti s res (hn ti (le_refl _) (by omega))
        (by rw [hP]; exact hs ti (le_refl _) (by omega)),
      ih (ti + 1) _ ((knock_target_same_cfg env ti s res).2.2.1.trans hP)
        (fun i h1 h2 => hn i (by omega) (by omega))
        (fun i h1 h2 => hs i (by omega) (by omega)), hP]
    ring

theorem knock_targets_dests (env : Env) (ports : List String) (targets : List addrinfo) :
    ∀ (ti : Nat) (s : toctoc_state_s), s.ports = ports → s.ports_cnt = ports.length →
      (∀ t ∈ targets, t.ai_socktype = SOCK_STREAM ∨ t.ai_socktype = SOCK_DGRAM) →
      (∀ i, ti ≤ i → i < ti + targets.length → (env.getnameinfo i).1 = 0) →
      (∀ i, ti ≤ i → i < ti + targets.length → ∀ c < ports.length, 0 ≤ env.socket i c) →
      dests (knock_targets env ti targets s).2.flatten
        = targets.flatMap (fun t => ports.map (fun p => (set_port t p).ai_addr)) := by
  induction targets with
  | nil => intro ti s _ _ _ _ _; simp [knock_targets, dests]
  | cons res rest ih =>
    intro ti s hp hP ht hn hs
    have hc := knock_target_same_cfg env ti s res
    simp only [knock_targets, List.flatten_cons, dests_append, List.length_cons,
      List.flatMap_cons] at *
    rw [knock_target_dests env ti s res (ht res (List.mem_cons_self _ _)) (by rw [hP, hp])
        (hn ti (le_refl _) (by omega))
        (by rw [hP]; exact hs ti (le_refl _) (by omega)),
      ih (ti + 1) _ (hc.2.1.trans hp) (hc.2.2.1.trans hP)
        (fun t h => ht t (List.mem_cons_of_mem _ h))
        (fun i h1 h2 => hn i (by omega) (by omega))
        (fun i h1 h2 => hs i (by omega) (by omega)), hp]

/-! ## The three ways `main` ends -/

theorem main_of_exit {argv : List String} {g : GetoptRun} (env : Env) {out : List Event}
    (h : parse_args argv g (set_defaults state) = Except.error out) :
    main argv g env = { trace := out ++ on_exit_cb, status := 1 } := by
  unfold main
  rw [h]

theorem main_of_unresolved {argv : List String} {g : GetoptRun} {env : Env}
    {s : toctoc_state_s} {out : List Event}
    (h : parse_args argv g (set_defaults state) = Except.ok (s, out))
    (hr : (env.getaddrinfo s.hostname s.hints).1 ≠ 0) :
    main argv g env =
      { trace := out ++ print_args s ++ [Event.getaddrinfo s.hostname s.hints]
          ++ [Event.perror "unable to get address info"] ++ on_exit_cb,
        status := 1 } := by
  unfold main
  rw [h]
  simp only
  rw [if_pos hr]

theorem main_of_resolved {argv : List String} {g : GetoptRun} {env : Env}
    {s : toctoc_state_s} {out : List Event}
    (h : parse_args argv g (set_defaults state) = Except.ok (s, out))
    (hr : (env.getaddrinfo s.hostname s.hints).1 = 0) :
    main argv g env =
      { trace := out ++ print_args s ++ [Event.getaddrinfo s.hostname s.hints]
          ++ (knock_targets env 0 (env.getaddrinfo s.hostname s.hints).2
                { s with results_ptr := (env.getaddrinfo s.hostname s.hints).2 }).2.flatten
          ++ on_exit_cb,
        status := 0 } := by
  unfold main
  rw [h]
  simp only [hr, ne_eq, not_true_eq_false, if_false]

theorem parse_args_out_output {argv : List String} {g : GetoptRun} {s0 s : toctoc_state_s}
    {out : List Event} (h : parse_args argv g s0 = Except.ok (s, out)) :
    ∀ e ∈ out, is_output e = true := by
  rw [(parse_args_ok h).2.2]
  exact parse_opts_output _ _

/-! ## C1: the number and the order of the knock attempts -/

/-- C1 (as amended): in every run of `main` in which `parse_args` returns,
resolution succeeds with the list `targets`, `getnameinfo` succeeds for every
target and no socket allocation fails, the program opens exactly N×P sockets
(N targets, P ports), and when every target has the stream or the datagram
socket type the destinations of its `connect` and `sendto` calls are, in
order, the targets in resolver order crossed with the ports in input order:
all ports of the first target, then all ports of the second, and so on. -/
theorem knock_attempts_order (argv : List String) (g : GetoptRun) (env : Env)
    (s : toctoc_state_s) (out : List Event) (targets : List addrinfo)
    (hparse : parse_args argv g (set_defaults state) = Except.ok (s, out))
    (hres : env.getaddrinfo s.hostname s.hints = (0, targets))
    (hname : ∀ ti < targets.length, (env.getnameinfo ti).1 = 0)
    (hsock : ∀ ti < targets.length, ∀ cnt < s.ports_cnt, 0 ≤ env.socket ti cnt) :
    opened (main argv g env).trace = targets.length * s.ports_cnt ∧
    ((∀ t ∈ targets, t.ai_socktype = SOCK_STREAM ∨ t.ai_socktype = SOCK_DGRAM) →
      dests (main argv g env).trace
        = targets.flatMap (fun t => s.ports.map (fun p => (set_port t p).ai_addr)) ∧
      (dests (main argv g env).trace).length = targets.length * s.ports_cnt) := by
  have hr : (env.getaddrinfo s.hostname s.hints).1 = 0 := by rw [hres]
  have hout := parse_args_out_output hparse
  have hcnt := parse_args_ports_cnt hparse
  have hd : ∀ (ts : List addrinfo),
      (ts.flatMap (fun t => s.ports.map (fun p => (set_port t p).ai_addr))).length
        = ts.length * s.ports_cnt := by
    intro ts
    induction ts with
    | nil => simp
    | cons t ts ih =>
      simp only [List.flatMap_cons, List.length_append, List.length_map, List.length_cons, ih,
        hcnt]
      ring
  rw [main_of_resolved hparse hr, hres]
  simp only [opened_append, dests_append, opened_of_output hout,
    opened_of_output (print_args_output s), dests_of_output hout,
    dests_of_output (print_args_output s)]
  constructor
  · rw [knock_targets_opened env s.ports_cnt targets 0 { s with results_ptr := targets } rfl
      (fun i _ h2 => hname i (by omega)) (fun i _ h2 => hsock i (by omega))]
    simp [opened, is_opened, on_exit_cb]
  · intro ht
    have key := knock_targets_dests env s.ports targets 0 { s with results_ptr := targets } rfl
      hcnt ht (fun i _ h2 => hname i (by omega))
      (fun i _ h2 c hc => hsock i (by omega) c (by rw [hcnt]; exact hc))
    rw [key]
    simp [dests, dest_of, on_exit_cb, hd]

theorem parse_two : parse_args argv_two getopt_none (set_defaults state)
    = Except.ok (state_two, []) := by
  rfl

/-- C1, witness: `toctoc example.test 80 81` in the environment `env_ok`. -/
theorem knock_attempts_order_witness :
    opened (main argv_two getopt_none env_ok).trace = 1 * 2 ∧
    ((∀ t ∈ [target_v4 SOCK_STREAM],
        t.ai_socktype = SOCK_STREAM ∨ t.ai_socktype = SOCK_DGRAM) →
      dests (main argv_two getopt_none env_ok).trace
        = [target_v4 SOCK_STREAM].flatMap
            (fun t => state_two.ports.map (fun p => (set_port t p).ai_addr)) ∧
      (dests (main argv_two getopt_none env_ok).trace).length = 1 * 2) :=
  knock_attempts_order argv_two getopt_none env_ok state_two [] [target_v4 SOCK_STREAM]
    parse_two rfl (fun _ _ => rfl) (fun _ _ _ _ => by simp [env_ok])

/-- C1, counterexample: `toctoc example.test 80 81` resolves to one target
and has two ports, and no socket allocation fails, so by the claim two sockets
are opened and two knocks are made; `getnameinfo` fails for the target, and
the program opens no socket and knocks nothing. -/
theorem knock_attempts_counterexample :
    env_noname.getaddrinfo state_two.hostname state_two.hints
        = (0, [target_v4 SOCK_STREAM]) ∧
    (∀ ti cnt, 0 ≤ env_noname.socket ti cnt) ∧
    state_two.ports_cnt = 2 ∧
    opened (main argv_two getopt_none env_noname).trace = 0 ∧
    dests (main argv_two getopt_none env_noname).trace = [] ∧
    opened (main argv_two getopt_none env_noname).trace ≠ 1 * 2 := by
  refine ⟨rfl, fun _ _ => by simp [env_noname, env_ok], rfl, by decide, by decide, by decide⟩

/-! ## C2: the delay between the attempts -/

theorem knock_sleeps (env : Env) (ti cnt : Nat) (s : toctoc_state_s) (res : addrinfo) :
    sleeps (knock env ti cnt s res).2.2
      = if 0 ≤ env.socket ti cnt ∧ cnt ≠ s.ports_cnt - 1
        then [(s.delay_ms * 1000 % 4294967296).toNat] else [] := by
  unfold knock
  simp only
  by_cases h : env.socket ti cnt < 0
  · have h2 : ¬ (0 ≤ env.socket ti cnt) := by omega
    simp [h, h2, sleeps, sleep_of]
  · have h2 : 0 ≤ env.socket ti cnt := by omega
    simp only [h, if_false, h2, true_and]
    split_ifs <;> simp_all [sleeps, sleep_of, close_sock]

theorem knock_ports_sleeps (env : Env) (ti : Nat) (P : Nat) (D : Int) (k : Nat) :
    ∀ (cnt : Nat) (s : toctoc_state_s) (res : addrinfo),
      s.ports_cnt = P → s.delay_ms = D →
      sleeps (knock_ports env ti k cnt s res).2.2
        = ((List.range' cnt k).filter
            (fun c => decide (0 ≤ env.socket ti c) && decide (c ≠ P - 1))).map
          (fun _ => (D * 1000 % 4294967296).toNat) := by
  induction k with
  | zero => intro cnt s res _ _; simp [knock_ports, sleeps]
  | succ k ih =>
    intro cnt s res hP hD
    have hc := knock_same_cfg env ti cnt s res
    simp only [knock_ports, sleeps_append, List.range'_succ]
    rw [knock_sleeps, ih (cnt + 1) _ _ (hc.2.2.1.trans hP) (hc.2.2.2.1.trans hD), hP, hD]
    by_cases h : 0 ≤ env.socket ti cnt ∧ cnt ≠ P - 1
    · simp [h, List.filter_cons]
    · rw [if_neg h]
      have : (decide (0 ≤ env.socket ti cnt) && decide (cnt ≠ P - 1)) = false := by
        simpa using h
      simp only [List.filter_cons, this, List.nil_append]
      simp

theorem filter_not_last (p : Nat → Bool) (P : Nat) :
    (List.range' 0 P).filter (fun c => p c && decide (c ≠ P - 1))
      = (List.range (P - 1)).filter p := by
  rw [← List.range_eq_range']
  cases P with
  | zero => simp
  | succ n =>
    simp only [List.range_succ, List.filter_append, Nat.add_sub_cancel]
    have h1 : List.filter (fun c => p c && decide (c ≠ n)) [n] = [] := by simp
    rw [h1, List.append_nil]
    apply List.filter_congr
    intro x hx
    have : x ≠ n := by rw [List.mem_range] at hx; omega
    simp [this]

theorem knock_target_sleeps (env : Env) (ti : Nat) (s : toctoc_state_s) (res : addrinfo) :
    sleeps (knock_target env ti s res).2
      = List.replicate
          (if (env.getnameinfo ti).1 = 0
           then ((List.range (s.ports_cnt - 1)).filter
                  (fun c => decide (0 ≤ env.socket ti c))).length
           else 0)
          (s.delay_ms * 1000 % 4294967296).toNat := by
  unfold knock_target
  simp only
  by_cases hn : (env.getnameinfo ti).1 = 0
  · simp only [hn, ne_eq, not_true_eq_false, if_false, if_true, sleeps_append]
    rw [knock_ports_sleeps env ti s.ports_cnt s.delay_ms _ 0 s res rfl rfl, filter_not_last,
      List.map_const']
    simp [sleeps, sleep_of]
  · simp [hn, sleeps, sleep_of]

/-- The events of each target come from the loop body at that position, run
from a state with the same configuration. -/
theorem knock_targets_segment (env : Env) (targets : List addrinfo) :
    ∀ (ti0 : Nat) (s : toctoc_state_s) (i : Nat) (seg : List Event),
      (knock_targets env ti0 targets s).2[i]? = some seg →
      ∃ s2 res, same_cfg s s2 ∧ targets[i]? = some res ∧
        seg = (knock_target env (ti0 + i) s2 res).2 := by
  induction targets with
  | nil => intro ti0 s i seg h; simp [knock_targets] at h
  | cons r rest ih =>
    intro ti0 s i seg h
    cases i with
    | zero =>
      simp only [knock_targets, List.getElem?_cons_zero, Option.some.injEq] at h
      exact ⟨s, r, same_cfg_refl s, by simp, h.symm⟩
    | succ i =>
      simp only [knock_targets, List.getElem?_cons_succ] at h
      obtain ⟨s2, res, h1, h2, h3⟩ := ih (ti0 + 1) _ i seg h
      refine ⟨s2, res, same_cfg_trans (knock_target_same_cfg env ti0 s r) h1, by simpa using h2, ?_⟩
      rw [h3]
      congr 2
      omega

theorem knock_targets_length (env : Env) (targets : List addrinfo) :
    ∀ (ti0 : Nat) (s : toctoc_state_s),
      (knock_targets env ti0 targets s).2.length = targets.length := by
  induction targets with
  | nil => intro ti0 s; rfl
  | cons r rest ih => intro ti0 s; simp [knock_targets, ih]

theorem sleeps_flatten_mem {segs : List (List Event)} {u : Nat}
    (h : u ∈ sleeps segs.flatten) : ∃ seg ∈ segs, u ∈ sleeps seg := by
  simp only [sleeps, List.mem_filterMap, List.mem_flatten] at *
  obtain ⟨e, ⟨seg, hs, he⟩, hu⟩ := h
  exact ⟨seg, hs, e, he, hu⟩

/-- C2 (as amended): in every run of `main` in which `parse_args` returns and
resolution succeeds, the events of the run are those of the targets one after
the other, and for each target the program sleeps once after each port other
than the last whose socket was allocated, and not at all when `getnameinfo`
fails for the target; so exactly P-1 times when `getnameinfo` succeeds and no
socket allocation fails.  Each sleep is `usleep(delay_ms * 1000)`, the
argument converted to the unsigned 32-bit `useconds_t`, and the attempt on
the last port of a target is never followed by a sleep. -/
theorem sleeps_per_target (argv : List String) (g : GetoptRun) (env : Env)
    (s : toctoc_state_s) (out : List Event) (targets : List addrinfo)
    (hparse : parse_args argv g (set_defaults state) = Except.ok (s, out))
    (hres : env.getaddrinfo s.hostname s.hints = (0, targets)) :
    (main argv g env).trace
      = out ++ print_args s ++ [Event.getaddrinfo s.hostname s.hints]
          ++ (knock_targets env 0 targets { s with results_ptr := targets }).2.flatten
          ++ on_exit_cb ∧
    (knock_targets env 0 targets { s with results_ptr := targets }).2.length = targets.length ∧
    (∀ ti seg, (knock_targets env 0 targets { s with results_ptr := targets }).2[ti]? = some seg →
      sleeps seg
        = List.replicate
            (if (env.getnameinfo ti).1 = 0
             then ((List.range (s.ports_cnt - 1)).filter
                    (fun c => decide (0 ≤ env.socket ti c))).length
             else 0)
            (s.delay_ms * 1000 % 4294967296).toNat ∧
      ((env.getnameinfo ti).1 = 0 → (∀ c < s.ports_cnt, 0 ≤ env.socket ti c) →
        (sleeps seg).length = s.ports_cnt - 1)) ∧
    (∀ u ∈ sleeps (main argv g env).trace, u = (s.delay_ms * 1000 % 4294967296).toNat) ∧
    (0 ≤ s.delay_ms → s.delay_ms * 1000 < 4294967296 →
      ∀ u ∈ sleeps (main argv g env).trace, (u : Int) = s.delay_ms * 1000) ∧
    (∀ ti st res, st.ports_cnt = s.ports_cnt →
      sleeps (knock env ti (s.ports_cnt - 1) st res).2.2 = []) := by
  have hr : (env.getaddrinfo s.hostname s.hints).1 = 0 := by rw [hres]
  have hout := parse_args_out_output hparse
  have hmain : (main argv g env).trace
      = out ++ print_args s ++ [Event.getaddrinfo s.hostname s.hints]
          ++ (knock_targets env 0 targets { s with results_ptr := targets }).2.flatten
          ++ on_exit_cb := by
    rw [main_of_resolved hparse hr, hres]
  have hseg : ∀ ti seg,
      (knock_targets env 0 targets { s with results_ptr := targets }).2[ti]? = some seg →
      sleeps seg
        = List.replicate
            (if (env.getnameinfo ti).1 = 0
             then ((List.range (s.ports_cnt - 1)).filter
                    (fun c => decide (0 ≤ env.socket ti c))).length
             else 0)
            (s.delay_ms * 1000 % 4294967296).toNat := by
    intro ti seg h
    obtain ⟨s2, res, hc, -, hs⟩ := knock_targets_segment env targets 0 _ ti seg h
    have h3 : s2.ports_cnt = s.ports_cnt := hc.2.2.1
    have h4 : s2.delay_ms = s.delay_ms := hc.2.2.2.1
    rw [hs, knock_target_sleeps, Nat.zero_add, h3, h4]
  have hall : ∀ u ∈ sleeps (main argv g env).trace,
      u = (s.delay_ms * 1000 % 4294967296).toNat := by
    intro u hu
    rw [hmain] at hu
    simp only [sleeps_append, sleeps_of_output hout, sleeps_of_output (print_args_output s),
      List.nil_append, List.mem_append] at hu
    rcases hu with (hu | hu) | hu
    · simp [sleeps, sleep_of] at hu
    · obtain ⟨seg, hs, hu⟩ := sleeps_flatten_mem hu
      obtain ⟨i, hi⟩ := List.getElem?_of_mem hs
      rw [hseg i seg hi] at hu
      exact (List.mem_replicate.mp hu).2
    · simp [sleeps, sleep_of, on_exit_cb] at hu
  refine ⟨hmain, knock_targets_length env targets 0 _, ?_, hall, ?_, ?_⟩
  · intro ti seg h
    refine ⟨hseg ti seg h, ?_⟩
    intro hn hs
    rw [hseg ti seg h, List.length_replicate, if_pos hn]
    have : (List.range (s.ports_cnt - 1)).filter (fun c => decide (0 ≤ env.socket ti c))
        = List.range (s.ports_cnt - 1) := by
      rw [List.filter_eq_self]
      intro c hc
      rw [List.mem_range] at hc
      simpa using hs c (by omega)
    rw [this, List.length_range]
  · intro h0 h1 u hu
    rw [hall u hu]
    have : 0 ≤ s.delay_ms * 1000 := by omega
    rw [Int.toNat_of_nonneg (Int.emod_nonneg _ (by norm_num))]
    exact Int.emod_eq_of_lt this h1
  · intro ti st res hst
    rw [knock_sleeps, hst]
    simp

/-- C2, witness: `toctoc example.test 80 81` in the environment `env_ok`. -/
theorem sleeps_per_target_witness :
    (knock_targets env_ok 0 [target_v4 SOCK_STREAM]
        { state_two with results_ptr := [target_v4 SOCK_STREAM] }).2.length = 1 ∧
    ∀ u ∈ sleeps (main argv_two getopt_none env_ok).trace, u = 200000 :=
  have h := sleeps_per_target argv_two getopt_none env_ok state_two []
    [target_v4 SOCK_STREAM] parse_two rfl
  ⟨h.2.1, h.2.2.2.1⟩

/-- C2, counterexample: `toctoc example.test 80 81` resolves to one target
and has two ports, so by the claim it sleeps once; the socket for the first
port cannot be allocated, and the program does not sleep at all. -/
theorem sleeps_counterexample :
    env_nosock.getaddrinfo state_two.hostname state_two.hints
        = (0, [target_v4 SOCK_STREAM]) ∧
    state_two.ports_cnt = 2 ∧
    sleeps (main argv_two getopt_none env_nosock).trace = [] ∧
    (sleeps (main argv_two getopt_none env_nosock).trace).length ≠ 2 - 1 := by
  refine ⟨rfl, rfl, by decide, by decide⟩

/-! ## C3: the socket discipline -/

theorem sock_scan_append (a b : List Event) :
    ∀ (cur : Option Int),
      sock_scan cur (a ++ b) = (sock_scan cur a).bind (fun c => sock_scan c b) := by
  induction a with
  | nil => intro cur; rfl
  | cons e a ih =>
    intro cur
    simp only [List.cons_append, sock_scan]
    cases sock_step cur e with
    | none => rfl
    | some c => exact ih c

theorem sock_scan_output {l : List Event} (h : ∀ e ∈ l, is_output e = true) :
    ∀ (cur : Option Int), sock_scan cur l = some cur := by
  induction l with
  | nil => intro cur; rfl
  | cons e l ih =>
    intro cur
    have he := h e (List.mem_cons_self _ _)
    have hs : sock_step cur e = some cur := by
      cases e <;> simp_all [is_output, sock_step]
    simp only [sock_scan, hs]
    exact ih (fun x hx => h x (List.mem_cons_of_mem _ hx)) cur

theorem close_sock_scan (cnt : Nat) (s : toctoc_state_s) :
    sock_scan (some s.sock) (close_sock cnt s) = some none := by
  unfold close_sock
  split_ifs <;> simp [sock_scan, sock_step]

theorem knock_sock_scan (env : Env) (ti cnt : Nat) (s : toctoc_state_s) (res : addrinfo) :
    sock_scan none (knock env ti cnt s res).2.2 = some none := by
  unfold knock
  simp only
  by_cases h : env.socket ti cnt < 0
  · have h2 : ¬ (0 ≤ env.socket ti cnt) := by omega
    simp [h, h2, sock_scan, sock_step]
  · have h2 : 0 ≤ env.socket ti cnt := by omega
    simp only [h, if_false]
    split_ifs <;>
      simp [sock_scan, sock_step, h2, close_sock] <;> split_ifs <;> simp [sock_scan, sock_step]

theorem knock_ports_sock_scan (env : Env) (ti : Nat) (k : Nat) :
    ∀ (cnt : Nat) (s : toctoc_state_s) (res : addrinfo),
      sock_scan none (knock_ports env ti k cnt s res).2.2 = some none := by
  induction k with
  | zero => intro cnt s res; rfl
  | succ k ih =>
    intro cnt s res
    simp only [knock_ports, sock_scan_append, knock_sock_scan, Option.some_bind]
    exact ih _ _ _

theorem knock_target_sock_scan (env : Env) (ti : Nat) (s : toctoc_state_s) (res : addrinfo) :
    sock_scan none (knock_target env ti s res).2 = some none := by
  unfold knock_target
  simp only
  split_ifs
  · simp [sock_scan, sock_step]
  · rw [sock_scan_append]
    simp only [sock_scan, sock_step, Option.some_bind]
    exact knock_ports_sock_scan env ti _ _ _ _

theorem knock_targets_sock_scan (env : Env) (targets : List addrinfo) :
    ∀ (ti : Nat) (s : toctoc_state_s),
      sock_scan none (knock_targets env ti targets s).2.flatten = some none := by
  induction targets with
  | nil => intro ti s; rfl
  | cons r rest ih =>
    intro ti s
    simp only [knock_targets, List.flatten_cons, sock_scan_append, knock_target_sock_scan,
      Option.some_bind]
    exact ih _ _

/-- The discipline tells traces apart: a socket left open, a second socket
before the first is closed, a `close` of another descriptor and a `close`
with nothing open are all caught. -/
theorem sock_scan_rejects :
    sock_scan none [Event.socket 2 1 0 3] = some (some 3) ∧
    sock_scan none [Event.socket 2 1 0 3, Event.socket 2 1 0 4] = none ∧
    sock_scan none [Event.socket 2 1 0 3, Event.close 4] = none ∧
    sock_scan none [Event.close 3] = none ∧
    sock_scan none [Event.socket 2 1 0 3, Event.close 3, Event.close 3] = none := by
  decide

/-- C3: in every run of `main`, whatever `connect`, `select`, `sendto` and
every other call answer, the trace keeps the socket discipline from start to
end: `socket` is only called with no descriptor open, a descriptor it returns
is the one open until the `close` of that same descriptor, `close` is called
on nothing else (so each allocated socket is closed exactly once, before the
next call of `socket`), and no descriptor is open when the program ends. -/
theorem sockets_closed (argv : List String) (g : GetoptRun) (env : Env) :
    sock_scan none (main argv g env).trace = some none := by
  cases hparse : parse_args argv g (set_defaults state) with
  | error out =>
    rw [main_of_exit env hparse]
    have hout : ∀ e ∈ out, is_output e = true := by
      unfold parse_args at hparse
      simp only at hparse
      split_ifs at hparse
      simp only [Except.error.injEq] at hparse
      rw [← hparse]
      intro e he
      simp only [List.mem_append, List.mem_singleton] at he
      rcases he with (he | he) | he
      · exact parse_opts_output _ _ e he
      · subst he; rfl
      · exact usage_output e he
    simp only [sock_scan_append, sock_scan_output hout, Option.some_bind]
    rfl
  | ok r =>
    obtain ⟨s, out⟩ := r
    have hout := parse_args_out_output hparse
    by_cases hr : (env.getaddrinfo s.hostname s.hints).1 = 0
    · rw [main_of_resolved hparse hr]
      have h1 : sock_scan none [Event.getaddrinfo s.hostname s.hints] = some none := rfl
      simp only [sock_scan_append, sock_scan_output hout,
        sock_scan_output (print_args_output s), Option.some_bind, h1,
        knock_targets_sock_scan]
      rfl
    · rw [main_of_unresolved hparse hr]
      simp only [sock_scan_append, sock_scan_output hout,
        sock_scan_output (print_args_output s), Option.some_bind]
      rfl

/-! ## C4: the port field of the destination -/

theorem knock_dests_mem (env : Env) (ti cnt : Nat) (s : toctoc_state_s) (res : addrinfo) :
    ∀ a ∈ dests (knock env ti cnt s res).2.2,
      a = (set_port res (s.ports.getD cnt "")).ai_addr := by
  unfold knock
  simp only
  split_ifs <;> simp [dests, dest_of, close_sock]

theorem knock_ports_dests_mem (env : Env) (ti : Nat) (r0 : addrinfo) (ports : List String)
    (k : Nat) :
    ∀ (cnt : Nat) (s : toctoc_state_s) (res : addrinfo),
      s.ports = ports → port_equiv r0 res →
      ∀ a ∈ dests (knock_ports env ti k cnt s res).2.2,
        ∃ c, cnt ≤ c ∧ c < cnt + k ∧ a = (set_port r0 (ports.getD c "")).ai_addr := by
  induction k with
  | zero => intro cnt s res _ _ a ha; simp [knock_ports, dests] at ha
  | succ k ih =>
    intro cnt s res hp hq a ha
    simp only [knock_ports, dests_append, List.mem_append] at ha
    rcases ha with ha | ha
    · refine ⟨cnt, le_refl _, by omega, ?_⟩
      rw [knock_dests_mem env ti cnt s res a ha, hq, hp]
    · obtain ⟨c, h1, h2, h3⟩ :=
        ih (cnt + 1) _ _ ((knock_same_cfg env ti cnt s res).2.1.trans hp)
          (knock_port_equiv env ti cnt s hq) a ha
      exact ⟨c, by omega, by omega, h3⟩

theorem dests_flatten_mem {segs : List (List Event)} {a : sockaddr}
    (h : a ∈ dests segs.flatten) : ∃ seg ∈ segs, a ∈ dests seg := by
  simp only [dests, List.mem_filterMap, List.mem_flatten] at *
  obtain ⟨e, ⟨seg, hs, he⟩, hu⟩ := h
  exact ⟨seg, hs, e, he, hu⟩

theorem knock_target_dests_mem (env : Env) (ti : Nat) (s : toctoc_state_s) (res : addrinfo) :
    ∀ a ∈ dests (knock_target env ti s res).2,
      ∃ c, c < s.ports_cnt ∧ a = (set_port res (s.ports.getD c "")).ai_addr := by
  intro a ha
  unfold knock_target at ha
  simp only at ha
  split_ifs at ha
  · simp [dests, dest_of] at ha
  · simp only [dests_append, List.mem_append] at ha
    rcases ha with ha | ha
    · simp [dests, dest_of] at ha
    · obtain ⟨c, -, h2, h3⟩ :=
        knock_ports_dests_mem env ti res s.ports _ 0 s res rfl (fun _ => rfl) a ha
      exact ⟨c, by omega, h3⟩

theorem htons_value (n : Int) :
    port_value (htons n) = (n % 65536).toNat ∧ (htons n).1 < 256 ∧ (htons n).2 < 256 := by
  have h0 : 0 ≤ n % 65536 := Int.emod_nonneg _ (by norm_num)
  have h1 : n % 65536 < 65536 := Int.emod_lt_of_pos _ (by norm_num)
  simp only [port_value, htons]
  omega

/-- C4: for an IPv4 or IPv6 target and a port string that `atoi` reads as n,
the loop body overwrites the port field of the address of the target with
the two bytes (n mod 65536) / 256 and (n mod 65536) % 256, high byte first,
and leaves the rest of the address alone; every `connect` and `sendto` of the
attempt, and so of the whole run, is given that address.  The two bytes stand
for n mod 65536: 4464 for the port string "70000", and n itself for n in
0..65535. -/
theorem destination_port :
    (∀ (res : addrinfo) (port : String),
      res.ai_family = PF_INET ∨ res.ai_family = PF_INET6 →
      (set_port res port).ai_addr
        = { res.ai_addr with
            port := ((atoi port % 65536).toNat / 256, (atoi port % 65536).toNat % 256) }) ∧
    (∀ (env : Env) (ti cnt : Nat) (s : toctoc_state_s) (res : addrinfo),
      ∀ a ∈ dests (knock env ti cnt s res).2.2,
        a = (set_port res (s.ports.getD cnt "")).ai_addr) ∧
    (∀ (argv : List String) (g : GetoptRun) (env : Env) (s : toctoc_state_s)
        (out : List Event) (targets : List addrinfo),
      parse_args argv g (set_defaults state) = Except.ok (s, out) →
      env.getaddrinfo s.hostname s.hints = (0, targets) →
      ∀ a ∈ dests (main argv g env).trace,
        ∃ t ∈ targets, ∃ p ∈ s.ports, a = (set_port t p).ai_addr) ∧
    (∀ n : Int, port_value (htons n) = (n % 65536).toNat ∧
      (htons n).1 < 256 ∧ (htons n).2 < 256) ∧
    (atoi "70000" = 70000 ∧ port_value (htons (atoi "70000")) = 4464) ∧
    (∀ port : String, 0 ≤ atoi port → atoi port ≤ 65535 →
      (port_value (htons (atoi port)) : Int) = atoi port) := by
  refine ⟨?_, ?_, ?_, htons_value, ⟨by decide, by decide⟩, ?_⟩
  · intro res port hf
    unfold set_port htons
    rcases hf with hf | hf
    · simp [hf]
    · have : ¬ (PF_INET6 = PF_INET) := by decide
      simp [hf, this]
  · intro env ti cnt s res a ha
    exact knock_dests_mem env ti cnt s res a ha
  · intro argv g env s out targets hparse hres a ha
    have hr : (env.getaddrinfo s.hostname s.hints).1 = 0 := by rw [hres]
    have hout := parse_args_out_output hparse
    have hcnt := parse_args_ports_cnt hparse
    rw [main_of_resolved hparse hr, hres] at ha
    simp only [dests_append, dests_of_output hout, dests_of_output (print_args_output s),
      List.nil_append, List.mem_append] at ha
    rcases ha with (ha | ha) | ha
    · simp [dests, dest_of] at ha
    · obtain ⟨seg, hseg, ha⟩ := dests_flatten_mem ha
      obtain ⟨i, hi⟩ := List.getElem?_of_mem hseg
      obtain ⟨s2, t, hc, ht, hs⟩ := knock_targets_segment env targets 0 _ i seg hi
      rw [hs] at ha
      obtain ⟨c, h1, h2⟩ := knock_target_dests_mem env (0 + i) s2 t a ha
      have hp2 : s2.ports = s.ports := hc.2.1
      have hc2 : s2.ports_cnt = s.ports_cnt := hc.2.2.1
      have hlt : c < s.ports.length := by rw [← hcnt, ← hc2]; exact h1
      refine ⟨t, List.getElem?_mem ht, s.ports.getD c "", ?_, ?_⟩
      · rw [List.getD_eq_getElem _ _ hlt]
        exact List.getElem_mem _
      · rw [h2, hp2]
    · simp [dests, dest_of, on_exit_cb] at ha
  · intro port h0 h1
    rw [(htons_value (atoi port)).1, Int.toNat_of_nonneg (Int.emod_nonneg _ (by norm_num))]
    exact Int.emod_eq_of_lt h0 (by omega)

/-- C4, witness: the IPv4 target of the examples and the port strings
"70000" and "8080". -/
theorem destination_port_witness :
    (set_port (target_v4 SOCK_STREAM) "70000").ai_addr
        = { (target_v4 SOCK_STREAM).ai_addr with
            port := ((atoi "70000" % 65536).toNat / 256, (atoi "70000" % 65536).toNat % 256) } ∧
    (port_value (htons (atoi "8080")) : Int) = atoi "8080" :=
  ⟨destination_port.1 (target_v4 SOCK_STREAM) "70000" (Or.inl rfl),
   destination_port.2.2.2.2.2 "8080" (by decide) (by decide)⟩

/-! ## C5: missing arguments -/

theorem parse_args_exit {argv : List String} {g : GetoptRun} (s0 : toctoc_state_s)
    (h : (argv.drop g.optind).length < 2) :
    parse_args argv g s0
      = Except.error ((parse_opts g.rets s0).2
          ++ [Event.stderr "Missing hostname and/or port(s)\n"] ++ usage) := by
  have h2 : (argv.length : Int) - (g.optind : Int) < 2 := by
    simp only [List.length_drop] at h; omega
  unfold parse_args
  simp only [h2, if_true]

theorem parse_args_return {argv : List String} {g : GetoptRun} (s0 : toctoc_state_s)
    (h : 2 ≤ (argv.drop g.optind).length) :
    parse_args argv g s0
      = Except.ok ({ (parse_opts g.rets s0).1 with
            hostname := (argv.drop g.optind).getD 0 "",
            ports_cnt := (argv.drop g.optind).length - 1,
            ports := (argv.drop g.optind).drop 1 }, (parse_opts g.rets s0).2) := by
  have h2 : ¬ ((argv.length : Int) - (g.optind : Int) < 2) := by
    simp only [List.length_drop] at h; omega
  have h3 : ((argv.length : Int) - (g.optind : Int) - 1).toNat
      = (argv.drop g.optind).length - 1 := by
    simp only [List.length_drop] at h ⊢; omega
  unfold parse_args
  simp only [h2, if_false, h3]

/-- C5: when fewer than two arguments are left after the options (no
hostname, or a hostname and no port), `main` exits with status 1 and its
trace has no network operation: no `getaddrinfo`, `socket`, `connect`,
`select` or `sendto`.  When at least two are left, `parse_args` returns, the
arguments left are the hostname followed by the ports in order, and
`ports_cnt` is the number of ports. -/
theorem missing_arguments :
    (∀ (argv : List String) (g : GetoptRun) (env : Env),
      (argv.drop g.optind).length < 2 →
      (main argv g env).status = 1 ∧
      ∀ e ∈ (main argv g env).trace, is_network e = false) ∧
    (∀ (argv : List String) (g : GetoptRun) (s0 : toctoc_state_s),
      2 ≤ (argv.drop g.optind).length →
      ∃ s out, parse_args argv g s0 = Except.ok (s, out) ∧
        argv.drop g.optind = s.hostname :: s.ports ∧
        s.ports_cnt = s.ports.length) := by
  constructor
  · intro argv g env h
    rw [main_of_exit env (parse_args_exit _ h)]
    refine ⟨rfl, ?_⟩
    intro e he
    simp only [List.mem_append, List.mem_singleton] at he
    rcases he with ((he | he) | he) | he
    · have := parse_opts_output _ _ e he
      cases e <;> simp_all [is_output, is_network]
    · subst he; rfl
    · have := usage_output e he
      cases e <;> simp_all [is_output, is_network]
    · simp only [on_exit_cb, List.mem_singleton] at he
      subst he; rfl
  · intro argv g s0 h
    refine ⟨_, _, parse_args_return s0 h, ?_, ?_⟩
    · cases hd : argv.drop g.optind with
      | nil => rw [hd] at h; simp at h
      | cons a l => simp
    · simp only [List.length_drop] at h ⊢

/-- C5, witness: `toctoc example.test` exits with status 1, and
`toctoc example.test 80 81` is parsed. -/
theorem missing_arguments_witness :
    ((main argv_noport getopt_none env_ok).status = 1 ∧
      ∀ e ∈ (main argv_noport getopt_none env_ok).trace, is_network e = false) ∧
    ∃ s out, parse_args argv_two getopt_none state = Except.ok (s, out) ∧
      argv_two.drop getopt_none.optind = s.hostname :: s.ports ∧
      s.ports_cnt = s.ports.length :=
  ⟨missing_arguments.1 argv_noport getopt_none env_ok (by decide),
   missing_arguments.2 argv_two getopt_none state (by decide)⟩

/-! ## C6: the exit status -/

/-- C6: when a hostname and at least one port are given, `parse_args`
returns, and the exit status of `main` is non-zero exactly when `getaddrinfo`
fails: then the status is 1 and the trace has no call of `socket`; when
`getaddrinfo` succeeds the status is 0, whatever `getnameinfo`, `socket`,
`connect`, `select` and `sendto` answer. -/
theorem exit_status (argv : List String) (g : GetoptRun) (env : Env)
    (h : 2 ≤ (argv.drop g.optind).length) :
    ∃ s out, parse_args argv g (set_defaults state) = Except.ok (s, out) ∧
      ((main argv g env).status ≠ 0 ↔ (env.getaddrinfo s.hostname s.hints).1 ≠ 0) ∧
      ((env.getaddrinfo s.hostname s.hints).1 ≠ 0 →
        (main argv g env).status = 1 ∧
        ∀ e ∈ (main argv g env).trace, is_socket e = false) ∧
      ((env.getaddrinfo s.hostname s.hints).1 = 0 → (main argv g env).status = 0) := by
  have hparse := parse_args_return (set_defaults state) h
  refine ⟨_, _, hparse, ?_, ?_, ?_⟩
  · constructor
    · intro hs hr
      rw [main_of_resolved hparse hr] at hs
      exact hs rfl
    · intro hr
      rw [main_of_unresolved hparse hr]
      simp
  · intro hr
    rw [main_of_unresolved hparse hr]
    refine ⟨rfl, ?_⟩
    intro e he
    simp only [List.mem_append, List.mem_singleton] at he
    rcases he with ((((he | he) | he) | he) | he)
    · have := parse_opts_output _ _ e he
      cases e <;> simp_all [is_output, is_socket]
    · have := print_args_output _ e he
      cases e <;> simp_all [is_output, is_socket]
    · subst he; rfl
    · subst he; rfl
    · simp only [on_exit_cb, List.mem_singleton] at he
      subst he; rfl
  · intro hr
    rw [main_of_resolved hparse hr]

/-- C6, witness: `toctoc example.test 80 81` when resolution fails. -/
theorem exit_status_witness :
    ∃ s out, parse_args argv_two getopt_none (set_defaults state) = Except.ok (s, out) ∧
      ((main argv_two getopt_none env_unresolved).status ≠ 0
        ↔ (env_unresolved.getaddrinfo s.hostname s.hints).1 ≠ 0) ∧
      ((env_unresolved.getaddrinfo s.hostname s.hints).1 ≠ 0 →
        (main argv_two getopt_none env_unresolved).status = 1 ∧
        ∀ e ∈ (main argv_two getopt_none env_unresolved).trace, is_socket e = false) ∧
      ((env_unresolved.getaddrinfo s.hostname s.hints).1 = 0 →
        (main argv_two getopt_none env_unresolved).status = 0) :=
  exit_status argv_two getopt_none env_unresolved (by decide)

/-! ## C7: UDP -/

theorem calls_append (a b : List Event) : calls (a ++ b) = calls a ++ calls b := by
  simp [calls]

theorem calls_of_output {l : List Event} (h : ∀ e ∈ l, is_output e = true) : calls l = [] := by
  unfold calls
  rw [List.filter_eq_nil_iff]
  intro e he
  simp [h e he]

theorem calls_close_sock (cnt : Nat) (s : toctoc_state_s) :
    calls (close_sock cnt s) = close_sock cnt s := by
  unfold close_sock calls
  split_ifs <;> simp [is_output]

theorem knock_udp_calls (env : Env) (ti cnt : Nat) (s : toctoc_state_s) (res : addrinfo)
    (ht : res.ai_socktype = SOCK_DGRAM) (h : 0 ≤ env.socket ti cnt) :
    calls (knock env ti cnt s res).2.2
      = [Event.socket res.ai_family res.ai_socktype res.ai_protocol (env.socket ti cnt),
         Event.sendto (env.socket ti cnt) 0 (set_port res (s.ports.getD cnt "")).ai_addr
           res.ai_addrlen,
         Event.close (env.socket ti cnt)]
        ++ (if cnt ≠ s.ports_cnt - 1 then [Event.usleep (s.delay_ms * 1000 % 4294967296).toNat]
            else []) := by
  have h2 : ¬ env.socket ti cnt < 0 := by omega
  have ht2 : (set_port res (s.ports.getD cnt "")).ai_socktype = SOCK_DGRAM := by
    rw [set_port_socktype]; exact ht
  have hne : ¬ (SOCK_DGRAM = SOCK_STREAM) := by decide
  have hlen : (set_port res (s.ports.getD cnt "")).ai_addrlen = res.ai_addrlen := by
    unfold set_port; split_ifs <;> rfl
  unfold knock close_sock
  simp only [h2, if_false, ht2, hne, if_true, hlen]
  split_ifs <;> simp [calls, is_output]

/-- The loop body does not look at what `sendto` answers, except to print. -/
theorem knock_sendto (env : Env) (f : Nat → Nat → Int) (ti cnt : Nat) (s : toctoc_state_s)
    (res : addrinfo) :
    (knock { env with sendto := f } ti cnt s res).1 = (knock env ti cnt s res).1 ∧
    (knock { env with sendto := f } ti cnt s res).2.1 = (knock env ti cnt s res).2.1 ∧
    calls (knock { env with sendto := f } ti cnt s res).2.2
      = calls (knock env ti cnt s res).2.2 := by
  unfold knock
  simp only
  split_ifs <;> simp [calls, is_output]

theorem knock_ports_sendto (env : Env) (f : Nat → Nat → Int) (ti : Nat) (k : Nat) :
    ∀ (cnt : Nat) (s : toctoc_state_s) (res : addrinfo),
      (knock_ports { env with sendto := f } ti k cnt s res).1
        = (knock_ports env ti k cnt s res).1 ∧
      calls (knock_ports { env with sendto := f } ti k cnt s res).2.2
        = calls (knock_ports env ti k cnt s res).2.2 := by
  induction k with
  | zero => intro cnt s res; exact ⟨rfl, rfl⟩
  | succ k ih =>
    intro cnt s res
    obtain ⟨h1, h2, h3⟩ := knock_sendto env f ti cnt s res
    simp only [knock_ports, calls_append]
    rw [h1, h2, h3]
    exact ⟨(ih _ _ _).1, by rw [(ih _ _ _).2]⟩

theorem knock_target_sendto (env : Env) (f : Nat → Nat → Int) (ti : Nat)
    (s : toctoc_state_s) (res : addrinfo) :
    (knock_target { env with sendto := f } ti s res).1 = (knock_target env ti s res).1 ∧
    calls (knock_target { env with sendto := f } ti s res).2
      = calls (knock_target env ti s res).2 := by
  obtain ⟨h1, h2⟩ := knock_ports_sendto env f ti s.ports_cnt 0 s res
  unfold knock_target
  simp only
  split_ifs
  · exact ⟨rfl, rfl⟩
  · exact ⟨h1, by simp only [calls_append, h2]⟩

theorem knock_targets_sendto (env : Env) (f : Nat → Nat → Int) (targets : List addrinfo) :
    ∀ (ti : Nat) (s : toctoc_state_s),
      calls (knock_targets { env with sendto := f } ti targets s).2.flatten
        = calls (knock_targets env ti targets s).2.flatten := by
  induction targets with
  | nil => intro ti s; rfl
  | cons r rest ih =>
    intro ti s
    obtain ⟨h1, h2⟩ := knock_target_sendto env f ti s r
    simp only [knock_targets, List.flatten_cons, calls_append]
    rw [h1, h2, ih]

theorem main_sendto (argv : List String) (g : GetoptRun) (env : Env) (f : Nat → Nat → Int) :
    calls (main argv g { env with sendto := f }).trace = calls (main argv g env).trace ∧
    (main argv g { env with sendto := f }).status = (main argv g env).status := by
  cases hparse : parse_args argv g (set_defaults state) with
  | error out =>
    rw [main_of_exit env hparse, main_of_exit _ hparse]
    exact ⟨rfl, rfl⟩
  | ok r =>
    obtain ⟨s, out⟩ := r
    by_cases hr : (env.getaddrinfo s.hostname s.hints).1 = 0
    · rw [main_of_resolved hparse hr,
        @main_of_resolved argv g { env with sendto := f } s out hparse hr]
      simp only [calls_append, knock_targets_sendto, and_self]
    · rw [main_of_unresolved hparse hr,
        @main_of_unresolved argv g { env with sendto := f } s out hparse hr]
      exact ⟨rfl, rfl⟩

theorem parse_udp : parse_args argv_udp getopt_udp (set_defaults state)
    = Except.ok (state_udp, []) := by
  rfl

theorem set_port_inet (t : addrinfo) (p : String) (h : t.ai_family = PF_INET) :
    (set_port t p).ai_addr = { t.ai_addr with port := htons (atoi p) } := by
  unfold set_port
  simp [h]

/-- One datagram target and two ports, both sockets allocated. -/
theorem udp_two_ports (env : Env) (s : toctoc_state_s) (t : addrinfo)
    (hcnt : s.ports_cnt = 2) (ht : t.ai_socktype = SOCK_DGRAM)
    (hn : (env.getnameinfo 0).1 = 0) (h0 : 0 ≤ env.socket 0 0) (h1 : 0 ≤ env.socket 0 1) :
    calls (knock_targets env 0 [t] s).2.flatten
      = [Event.getnameinfo t.ai_addr t.ai_addrlen,
         Event.socket t.ai_family t.ai_socktype t.ai_protocol (env.socket 0 0),
         Event.sendto (env.socket 0 0) 0 (set_port t (s.ports.getD 0 "")).ai_addr t.ai_addrlen,
         Event.close (env.socket 0 0),
         Event.usleep (s.delay_ms * 1000 % 4294967296).toNat,
         Event.socket t.ai_family t.ai_socktype t.ai_protocol (env.socket 0 1),
         Event.sendto (env.socket 0 1) 0 (set_port t (s.ports.getD 1 "")).ai_addr t.ai_addrlen,
         Event.close (env.socket 0 1)] := by
  have hq : port_equiv t (knock env 0 0 s t).2.1 :=
    knock_port_equiv env 0 0 s (fun _ => rfl)
  have hc := knock_same_cfg env 0 0 s t
  have ht1 : (knock env 0 0 s t).2.1.ai_socktype = SOCK_DGRAM := by
    rw [port_equiv_socktype hq]; exact ht
  have hk0 := knock_udp_calls env 0 0 s t ht h0
  have hk1 := knock_udp_calls env 0 1 (knock env 0 0 s t).1 (knock env 0 0 s t).2.1 ht1 h1
  obtain ⟨hfam, hproto, hlen⟩ := port_equiv_fields hq
  rw [hc.2.1, hc.2.2.1, hc.2.2.2.1, hq, hfam, hproto, hlen, ht1, hcnt] at hk1
  rw [hcnt] at hk0
  simp only [knock_targets, knock_target, hn, ne_eq, not_true_eq_false, if_false,
    List.flatten_cons, List.flatten_nil, List.append_nil, knock_ports, hcnt, calls_append]
  rw [hk0, hk1]
  simp [calls, is_output, ht]

/-- C7 (as amended): in UDP mode (the socket type of the target is datagram), the calls
of a knock attempt whose socket was allocated are `socket`, one `sendto` of
zero bytes to the destination address, `close`, and the sleep when the port
is not the last: no `connect` and no `select`.  What `sendto` answers changes
neither the calls of the run nor its exit status.  With `-u -d 0`, one
resolved IPv4 target of datagram type for which `getnameinfo` succeeds, the
ports "53" and "80" and both sockets allocated, the calls of the run are
exactly: resolve, `getnameinfo`, then a zero-length datagram to port 53 and
one to port 80, each on a socket of its own, with a sleep of zero
microseconds between the two. -/
theorem udp_knock :
    (∀ (env : Env) (ti cnt : Nat) (s : toctoc_state_s) (res : addrinfo),
      res.ai_socktype = SOCK_DGRAM → 0 ≤ env.socket ti cnt →
      calls (knock env ti cnt s res).2.2
        = [Event.socket res.ai_family res.ai_socktype res.ai_protocol (env.socket ti cnt),
           Event.sendto (env.socket ti cnt) 0 (set_port res (s.ports.getD cnt "")).ai_addr
             res.ai_addrlen,
           Event.close (env.socket ti cnt)]
          ++ (if cnt ≠ s.ports_cnt - 1
              then [Event.usleep (s.delay_ms * 1000 % 4294967296).toNat] else [])) ∧
    (∀ (argv : List String) (g : GetoptRun) (env : Env) (f : Nat → Nat → Int),
      calls (main argv g { env with sendto := f }).trace = calls (main argv g env).trace ∧
      (main argv g { env with sendto := f }).status = (main argv g env).status) ∧
    (∀ (env : Env) (t : addrinfo),
      env.getaddrinfo "example.test" state_udp.hints = (0, [t]) →
      t.ai_family = PF_INET → t.ai_socktype = SOCK_DGRAM →
      (env.getnameinfo 0).1 = 0 → 0 ≤ env.socket 0 0 → 0 ≤ env.socket 0 1 →
      calls (main argv_udp getopt_udp env).trace
        = [Event.getaddrinfo "example.test" state_udp.hints,
           Event.getnameinfo t.ai_addr t.ai_addrlen,
           Event.socket PF_INET SOCK_DGRAM t.ai_protocol (env.socket 0 0),
           Event.sendto (env.socket 0 0) 0 { t.ai_addr with port := (0, 53) } t.ai_addrlen,
           Event.close (env.socket 0 0),
           Event.usleep 0,
           Event.socket PF_INET SOCK_DGRAM t.ai_protocol (env.socket 0 1),
           Event.sendto (env.socket 0 1) 0 { t.ai_addr with port := (0, 80) } t.ai_addrlen,
           Event.close (env.socket 0 1),
           Event.freeaddrinfo]) := by
  refine ⟨knock_udp_calls, main_sendto, ?_⟩
  intro env t hres hf ht hn h0 h1
  have hr : (env.getaddrinfo state_udp.hostname state_udp.hints).1 = 0 := by
    show (env.getaddrinfo "example.test" state_udp.hints).1 = 0
    rw [hres]
  have hres2 : env.getaddrinfo state_udp.hostname state_udp.hints = (0, [t]) := hres
  rw [main_of_resolved parse_udp hr, hres2]
  have hpre : calls ([] ++ print_args state_udp) = [] :=
    calls_of_output (by
      intro e he
      simp only [List.nil_append] at he
      exact print_args_output _ e he)
  have e53 : htons (atoi "53") = (0, 53) := by decide
  have e80 : htons (atoi "80") = (0, 80) := by decide
  have hp0 : (set_port t "53").ai_addr = { t.ai_addr with port := (0, 53) } := by
    rw [set_port_inet t "53" hf, e53]
  have hp1 : (set_port t "80").ai_addr = { t.ai_addr with port := (0, 80) } := by
    rw [set_port_inet t "80" hf, e80]
  have key := udp_two_ports env { state_udp with results_ptr := [t] } t rfl ht hn h0 h1
  have hs0 : ({ state_udp with results_ptr := [t] } : toctoc_state_s).ports.getD 0 "" = "53" :=
    rfl
  have hs1 : ({ state_udp with results_ptr := [t] } : toctoc_state_s).ports.getD 1 "" = "80" :=
    rfl
  have hd : (({ state_udp with results_ptr := [t] } : toctoc_state_s).delay_ms * 1000
      % 4294967296).toNat = 0 := rfl
  rw [hs0, hs1, hd, hp0, hp1, hf, ht] at key
  rw [calls_append, calls_append, calls_append, hpre, key]
  rfl

/-- C7, witness: `toctoc -u -d 0 example.test 53 80` in the environment
`env_ok`. -/
theorem udp_knock_witness :
    calls (knock env_ok 0 0 state_udp (target_v4 SOCK_DGRAM)).2.2
        = [Event.socket PF_INET SOCK_DGRAM 0 3,
           Event.sendto 3 0 (set_port (target_v4 SOCK_DGRAM) "53").ai_addr 16,
           Event.close 3]
          ++ (if 0 ≠ state_udp.ports_cnt - 1
              then [Event.usleep (state_udp.delay_ms * 1000 % 4294967296).toNat] else []) ∧
    calls (main argv_udp getopt_udp env_ok).trace
        = [Event.getaddrinfo "example.test" state_udp.hints,
           Event.getnameinfo (target_v4 SOCK_DGRAM).ai_addr 16,
           Event.socket PF_INET SOCK_DGRAM 0 3,
           Event.sendto 3 0 { (target_v4 SOCK_DGRAM).ai_addr with port := (0, 53) } 16,
           Event.close 3,
           Event.usleep 0,
           Event.socket PF_INET SOCK_DGRAM 0 3,
           Event.sendto 3 0 { (target_v4 SOCK_DGRAM).ai_addr with port := (0, 80) } 16,
           Event.close 3,
           Event.freeaddrinfo] :=
  ⟨udp_knock.1 env_ok 0 0 state_udp (target_v4 SOCK_DGRAM) rfl (by decide),
   udp_knock.2.2 env_ok (target_v4 SOCK_DGRAM) rfl rfl rfl rfl (by decide) (by decide)⟩

/-- C7, counterexample: `toctoc -u -d 0 example.test 53 80` resolves to one
IPv4 target of datagram type, so by the claim two datagrams are sent;
`getnameinfo` fails for the target, and the run sends none. -/
theorem udp_knock_counterexample :
    parse_args argv_udp getopt_udp (set_defaults state) = Except.ok (state_udp, []) ∧
    env_noname.getaddrinfo state_udp.hostname state_udp.hints
        = (0, [target_v4 SOCK_DGRAM]) ∧
    dests (main argv_udp getopt_udp env_noname).trace = [] ∧
    (dests (main argv_udp getopt_udp env_noname).trace).length ≠ 2 := by
  refine ⟨rfl, rfl, by decide, by decide⟩

/-! ## C8: the defaults, and which option changes which field -/

theorem parse_opt_tv (s : toctoc_state_s) (ch : Char) (optarg : String) (h : ch ≠ 't') :
    (parse_opt s ch optarg).1.tv = s.tv := by
  unfold parse_opt
  split_ifs <;> rfl

theorem parse_opt_delay (s : toctoc_state_s) (ch : Char) (optarg : String) (h : ch ≠ 'd') :
    (parse_opt s ch optarg).1.delay_ms = s.delay_ms := by
  unfold parse_opt
  split_ifs <;> rfl

theorem parse_opt_socktype (s : toctoc_state_s) (ch : Char) (optarg : String)
    (h : ch ≠ 'u') :
    (parse_opt s ch optarg).1.hints.ai_socktype = s.hints.ai_socktype := by
  unfold parse_opt
  split_ifs <;> rfl

theorem parse_opt_family_same (s : toctoc_state_s) (ch : Char) (optarg : String)
    (h4 : ch ≠ '4') (h6 : ch ≠ '6') :
    (parse_opt s ch optarg).1.hints.ai_family = s.hints.ai_family := by
  unfold parse_opt
  split_ifs <;> first | rfl | contradiction

theorem parse_opts_fields (rets : List (Char × String)) :
    ∀ (s : toctoc_state_s),
      ((∀ r ∈ rets, r.1 ≠ 't') → (parse_opts rets s).1.tv = s.tv) ∧
      ((∀ r ∈ rets, r.1 ≠ 'd') → (parse_opts rets s).1.delay_ms = s.delay_ms) ∧
      ((∀ r ∈ rets, r.1 ≠ 'u') →
        (parse_opts rets s).1.hints.ai_socktype = s.hints.ai_socktype) ∧
      ((∀ r ∈ rets, r.1 ≠ '4' ∧ r.1 ≠ '6') →
        (parse_opts rets s).1.hints.ai_family = s.hints.ai_family) := by
  induction rets with
  | nil => intro s; simp [parse_opts]
  | cons r rest ih =>
    intro s
    obtain ⟨ch, optarg⟩ := r
    obtain ⟨i1, i2, i3, i4⟩ := ih (parse_opt s ch optarg).1
    simp only [parse_opts, List.mem_cons, forall_eq_or_imp]
    refine ⟨?_, ?_, ?_, ?_⟩
    · rintro ⟨h, hrest⟩
      rw [i1 hrest, parse_opt_tv s ch optarg h]
    · rintro ⟨h, hrest⟩
      rw [i2 hrest, parse_opt_delay s ch optarg h]
    · rintro ⟨h, hrest⟩
      rw [i3 hrest, parse_opt_socktype s ch optarg h]
    · rintro ⟨h, hrest⟩
      rw [i4 hrest, parse_opt_family_same s ch optarg h.1 h.2]

/-- C8: with no options, `set_defaults` followed by `parse_args` gives the
timeout 200 ms (`tv_sec` 0, `tv_usec` 200000), the delay 200 ms, the stream
socket type (TCP) and the unspecified address family; and `parse_args`
leaves the timeout as it was unless `-t` is among the options, the delay
unless `-d` is, the socket type unless `-u` is, and the family unless `-4` or
`-6` is. -/
theorem defaults_and_options :
    (∀ (argv : List String) (optind : Nat), 2 ≤ (argv.drop optind).length →
      ∃ s out, parse_args argv { rets := [], optind := optind } (set_defaults state)
          = Except.ok (s, out) ∧
        s.tv = { tv_sec := 0, tv_usec := 200000 } ∧ s.delay_ms = 200 ∧
        s.hints.ai_socktype = SOCK_STREAM ∧ s.hints.ai_family = PF_UNSPEC) ∧
    (∀ (argv : List String) (g : GetoptRun) (s0 s : toctoc_state_s) (out : List Event),
      parse_args argv g s0 = Except.ok (s, out) →
      ((∀ r ∈ g.rets, r.1 ≠ 't') → s.tv = s0.tv) ∧
      ((∀ r ∈ g.rets, r.1 ≠ 'd') → s.delay_ms = s0.delay_ms) ∧
      ((∀ r ∈ g.rets, r.1 ≠ 'u') → s.hints.ai_socktype = s0.hints.ai_socktype) ∧
      ((∀ r ∈ g.rets, r.1 ≠ '4' ∧ r.1 ≠ '6') → s.hints.ai_family = s0.hints.ai_family)) := by
  constructor
  · intro argv optind h
    refine ⟨_, _, @parse_args_return argv { rets := [], optind := optind }
      (set_defaults state) h, ?_, ?_, ?_, ?_⟩ <;> rfl
  · intro argv g s0 s out hparse
    obtain ⟨-, hs, -⟩ := parse_args_ok hparse
    obtain ⟨i1, i2, i3, i4⟩ := parse_opts_fields g.rets s0
    rw [hs]
    exact ⟨i1, i2, i3, i4⟩

/-- C8, witness: `toctoc example.test 80 81`, and
`toctoc -6 -t 50 -4 example.test 80`, which has neither `-d` nor `-u`. -/
theorem defaults_and_options_witness :
    (∃ s out, parse_args argv_two { rets := [], optind := 1 } (set_defaults state)
          = Except.ok (s, out) ∧
        s.tv = { tv_sec := 0, tv_usec := 200000 } ∧ s.delay_ms = 200 ∧
        s.hints.ai_socktype = SOCK_STREAM ∧ s.hints.ai_family = PF_UNSPEC) ∧
    state_family.delay_ms = (set_defaults state).delay_ms ∧
    state_family.hints.ai_socktype = (set_defaults state).hints.ai_socktype :=
  have h := defaults_and_options.2 argv_family getopt_family (set_defaults state)
    state_family [] rfl
  ⟨defaults_and_options.1 argv_two 1 (by decide),
   h.2.1 (by decide), h.2.2.1 (by decide)⟩

/-! ## C9: the address family -/

theorem parse_opt_family (s : toctoc_state_s) (ch : Char) (optarg : String) :
    (parse_opt s ch optarg).1.hints.ai_family
      = if ch = '4' then PF_INET else if ch = '6' then PF_INET6 else s.hints.ai_family := by
  unfold parse_opt
  split_ifs <;> rfl

theorem parse_opts_family (rets : List (Char × String)) :
    ∀ (s : toctoc_state_s),
      (parse_opts rets s).1.hints.ai_family
        = match (rets.map Prod.fst).reverse.find? (fun c => c = '4' || c = '6') with
          | some c => if c = '4' then PF_INET else PF_INET6
          | none => s.hints.ai_family := by
  induction rets with
  | nil => intro s; rfl
  | cons r rest ih =>
    intro s
    obtain ⟨ch, optarg⟩ := r
    simp only [parse_opts, List.map_cons, List.reverse_cons, List.find?_append]
    rw [ih]
    cases hf : (rest.map Prod.fst).reverse.find? (fun c => c = '4' || c = '6') with
    | some c => simp
    | none =>
      simp only [Option.none_or, parse_opt_family, List.find?_cons, List.find?_nil]
      by_cases h4 : ch = '4'
      · simp [h4]
      · by_cases h6 : ch = '6'
        · subst h6; simp
        · simp [h4, h6]

theorem resolutions_append (a b : List Event) :
    resolutions (a ++ b) = resolutions a ++ resolutions b := by
  simp [resolutions]

theorem resolutions_of_output {l : List Event} (h : ∀ e ∈ l, is_output e = true) :
    resolutions l = [] := by
  unfold resolutions
  rw [List.filterMap_eq_nil_iff]
  intro e he
  have := h e he
  cases e <;> simp_all [is_output, resolve_of]

theorem knock_resolutions (env : Env) (ti cnt : Nat) (s : toctoc_state_s) (res : addrinfo) :
    resolutions (knock env ti cnt s res).2.2 = [] := by
  unfold knock
  simp only
  split_ifs <;> simp [resolutions, resolve_of, close_sock]

theorem knock_ports_resolutions (env : Env) (ti : Nat) (k : Nat) :
    ∀ (cnt : Nat) (s : toctoc_state_s) (res : addrinfo),
      resolutions (knock_ports env ti k cnt s res).2.2 = [] := by
  induction k with
  | zero => intro cnt s res; rfl
  | succ k ih =>
    intro cnt s res
    simp only [knock_ports, resolutions_append, knock_resolutions, ih, List.append_nil]

theorem knock_target_resolutions (env : Env) (ti : Nat) (s : toctoc_state_s)
    (res : addrinfo) : resolutions (knock_target env ti s res).2 = [] := by
  unfold knock_target
  simp only
  split_ifs
  · simp [resolutions, resolve_of]
  · rw [resolutions_append, knock_ports_resolutions]
    simp [resolutions, resolve_of]

theorem knock_targets_resolutions (env : Env) (targets : List addrinfo) :
    ∀ (ti : Nat) (s : toctoc_state_s),
      resolutions (knock_targets env ti targets s).2.flatten = [] := by
  induction targets with
  | nil => intro ti s; rfl
  | cons r rest ih =>
    intro ti s
    simp only [knock_targets, List.flatten_cons, resolutions_append,
      knock_target_resolutions, ih, List.append_nil]

/-- C9: for every sequence of options, the address family that `parse_args`
leaves in the hints is the one the last `-4` or `-6` of the sequence asks
for: IPv4 only for `-4`, IPv6 only for `-6`, unspecified when neither
occurs; `main` calls `getaddrinfo` exactly once, with these hints.  Any other
option leaves the family as it was. -/
theorem family_last_option :
    (∀ (argv : List String) (g : GetoptRun) (env : Env) (s : toctoc_state_s)
        (out : List Event),
      parse_args argv g (set_defaults state) = Except.ok (s, out) →
      s.hints.ai_family = family_of_options (g.rets.map Prod.fst) ∧
      resolutions (main argv g env).trace = [(s.hostname, s.hints)]) ∧
    (∀ (s : toctoc_state_s) (ch : Char) (optarg : String), ch ≠ '4' → ch ≠ '6' →
      (parse_opt s ch optarg).1.hints.ai_family = s.hints.ai_family) := by
  constructor
  · intro argv g env s out hparse
    have hout := parse_args_out_output hparse
    have hfam : s.hints.ai_family = family_of_options (g.rets.map Prod.fst) := by
      obtain ⟨-, hs, -⟩ := parse_args_ok hparse
      rw [hs]
      simp only [parse_opts_family, family_of_options]
      rfl
    refine ⟨hfam, ?_⟩
    by_cases hr : (env.getaddrinfo s.hostname s.hints).1 = 0
    · rw [main_of_resolved hparse hr]
      simp only [resolutions_append, resolutions_of_output hout,
        resolutions_of_output (print_args_output s), knock_targets_resolutions]
      rfl
    · rw [main_of_unresolved hparse hr]
      simp only [resolutions_append, resolutions_of_output hout,
        resolutions_of_output (print_args_output s)]
      rfl
  · intro s ch optarg h4 h6
    rw [parse_opt_family]
    simp [h4, h6]

/-- C9, witness: `toctoc -6 -t 50 -4 example.test 80` resolves IPv4 only. -/
theorem family_last_option_witness :
    (state_family.hints.ai_family = family_of_options (getopt_family.rets.map Prod.fst) ∧
      resolutions (main argv_family getopt_family env_ok).trace
        = [(state_family.hostname, state_family.hints)]) ∧
    family_of_options (getopt_family.rets.map Prod.fst) = PF_INET ∧
    (parse_opt state_family 'u' "").1.hints.ai_family = state_family.hints.ai_family :=
  ⟨family_last_option.1 argv_family getopt_family env_ok state_family [] rfl,
   by decide,
   family_last_option.2 state_family 'u' "" (by decide) (by decide)⟩

/-! ## C10: TCP -/

theorem select_timeouts_append (a b : List Event) :
    select_timeouts (a ++ b) = select_timeouts a ++ select_timeouts b := by
  simp [select_timeouts]

theorem select_timeouts_of_output {l : List Event} (h : ∀ e ∈ l, is_output e = true) :
    select_timeouts l = [] := by
  unfold select_timeouts
  rw [List.filterMap_eq_nil_iff]
  intro e he
  have := h e he
  cases e <;> simp_all [is_output, timeout_of]

/-- The calls of a TCP attempt whose socket was allocated: `socket`,
`fcntl`, one `connect`, then `select` on the socket with the timeout that is
in the state, unless `connect` failed with an error other than "in
progress"; then `close` and the sleep when the port is not the last. -/
theorem knock_tcp_calls (env : Env) (ti cnt : Nat) (s : toctoc_state_s) (res : addrinfo)
    (ht : res.ai_socktype = SOCK_STREAM) (h : 0 ≤ env.socket ti cnt) :
    calls (knock env ti cnt s res).2.2
      = [Event.socket res.ai_family res.ai_socktype res.ai_protocol (env.socket ti cnt),
         Event.fcntl (env.socket ti cnt),
         Event.connect (env.socket ti cnt) (set_port res (s.ports.getD cnt "")).ai_addr
           res.ai_addrlen]
        ++ (if (env.connect ti cnt).1 ≠ 0 ∧ (env.connect ti cnt).2 ≠ EINPROGRESS then []
            else [Event.select (env.socket ti cnt + 1) [env.socket ti cnt] s.tv])
        ++ [Event.close (env.socket ti cnt)]
        ++ (if cnt ≠ s.ports_cnt - 1 then [Event.usleep (s.delay_ms * 1000 % 4294967296).toNat]
            else []) := by
  have h2 : ¬ env.socket ti cnt < 0 := by omega
  have ht2 : (set_port res (s.ports.getD cnt "")).ai_socktype = SOCK_STREAM := by
    rw [set_port_socktype]; exact ht
  have hlen : (set_port res (s.ports.getD cnt "")).ai_addrlen = res.ai_addrlen :=
    (set_port_fields res _).2.2
  unfold knock close_sock
  simp only [h2, if_false, ht2, if_true, hlen]
  split_ifs <;> simp [calls, is_output]

theorem knock_select_timeouts (env : Env) (ti cnt : Nat) (s : toctoc_state_s)
    (res : addrinfo) : ∀ tv ∈ select_timeouts (knock env ti cnt s res).2.2, tv = s.tv := by
  unfold knock close_sock
  simp only
  split_ifs <;> simp [select_timeouts, timeout_of]

theorem knock_tv_kept (env : Env)
    (hsel : ∀ ti cnt fds tv, (env.select ti cnt fds tv).timeout = tv)
    (ti cnt : Nat) (s : toctoc_state_s) (res : addrinfo) :
    (knock env ti cnt s res).1.tv = s.tv := by
  unfold knock
  simp only
  split_ifs <;> first | rfl | exact hsel _ _ _ _

theorem knock_ports_select_timeouts (env : Env)
    (hsel : ∀ ti cnt fds tv, (env.select ti cnt fds tv).timeout = tv) (ti : Nat) (k : Nat) :
    ∀ (cnt : Nat) (s : toctoc_state_s) (res : addrinfo),
      (knock_ports env ti k cnt s res).1.tv = s.tv ∧
      ∀ tv ∈ select_timeouts (knock_ports env ti k cnt s res).2.2, tv = s.tv := by
  induction k with
  | zero => intro cnt s res; exact ⟨rfl, by simp [knock_ports, select_timeouts]⟩
  | succ k ih =>
    intro cnt s res
    have h1 := knock_tv_kept env hsel ti cnt s res
    obtain ⟨i1, i2⟩ := ih (cnt + 1) (knock env ti cnt s res).1 (knock env ti cnt s res).2.1
    simp only [knock_ports, select_timeouts_append, List.mem_append]
    refine ⟨i1.trans h1, ?_⟩
    rintro tv (h | h)
    · exact knock_select_timeouts env ti cnt s res tv h
    · exact (i2 tv h).trans h1

theorem knock_target_select_timeouts (env : Env)
    (hsel : ∀ ti cnt fds tv, (env.select ti cnt fds tv).timeout = tv) (ti : Nat)
    (s : toctoc_state_s) (res : addrinfo) :
    (knock_target env ti s res).1.tv = s.tv ∧
    ∀ tv ∈ select_timeouts (knock_target env ti s res).2, tv = s.tv := by
  obtain ⟨h1, h2⟩ := knock_ports_select_timeouts env hsel ti s.ports_cnt 0 s res
  unfold knock_target
  simp only
  split_ifs
  · exact ⟨rfl, by simp [select_timeouts, timeout_of]⟩
  · refine ⟨h1, ?_⟩
    intro tv htv
    simp only [select_timeouts_append, List.mem_append] at htv
    rcases htv with htv | htv
    · simp [select_timeouts, timeout_of] at htv
    · exact h2 tv htv

theorem knock_targets_select_timeouts (env : Env)
    (hsel : ∀ ti cnt fds tv, (env.select ti cnt fds tv).timeout = tv)
    (targets : List addrinfo) :
    ∀ (ti : Nat) (s : toctoc_state_s),
      ∀ tv ∈ select_timeouts (knock_targets env ti targets s).2.flatten, tv = s.tv := by
  induction targets with
  | nil => intro ti s tv htv; simp [knock_targets, select_timeouts] at htv
  | cons r rest ih =>
    intro ti s tv htv
    obtain ⟨h1, h2⟩ := knock_target_select_timeouts env hsel ti s r
    simp only [knock_targets, List.flatten_cons, select_timeouts_append,
      List.mem_append] at htv
    rcases htv with htv | htv
    · exact h2 tv htv
    · exact (ih _ _ tv htv).trans h1

/-- Where `select` leaves the timeout it is given as it was, every wait of
the run has the configured timeout. -/
theorem select_timeouts_kept (argv : List String) (g : GetoptRun) (env : Env)
    (s : toctoc_state_s) (out : List Event)
    (hparse : parse_args argv g (set_defaults state) = Except.ok (s, out))
    (hsel : ∀ ti cnt fds tv, (env.select ti cnt fds tv).timeout = tv) :
    ∀ tv ∈ select_timeouts (main argv g env).trace, tv = s.tv := by
  have hout := parse_args_out_output hparse
  intro tv htv
  by_cases hr : (env.getaddrinfo s.hostname s.hints).1 = 0
  · rw [main_of_resolved hparse hr] at htv
    simp only [select_timeouts_append, select_timeouts_of_output hout,
      select_timeouts_of_output (print_args_output s), List.nil_append,
      List.mem_append] at htv
    rcases htv with (htv | htv) | htv
    · simp [select_timeouts, timeout_of] at htv
    · exact knock_targets_select_timeouts env hsel _ 0
        { s with results_ptr := (env.getaddrinfo s.hostname s.hints).2 } tv htv
    · simp [select_timeouts, timeout_of, on_exit_cb] at htv
  · rw [main_of_unresolved hparse hr] at htv
    simp only [select_timeouts_append, select_timeouts_of_output hout,
      select_timeouts_of_output (print_args_output s), List.nil_append] at htv
    simp [select_timeouts, timeout_of, on_exit_cb] at htv

theorem parse_timeout : parse_args argv_timeout getopt_timeout (set_defaults state)
    = Except.ok (state_timeout, []) := by
  rfl

/-- C10, the failing run: `toctoc -t 50 example.test 80 81` where `select`
writes the time left into the timeout, as Linux does.  The configured
timeout is 0 s and 50000 µs; the first wait is given it, the second wait is
given the zero that the first `select` left in `state.tv`. -/
theorem select_timeout_overwritten :
    parse_args argv_timeout getopt_timeout (set_defaults state)
        = Except.ok (state_timeout, []) ∧
    state_timeout.tv = { tv_sec := 0, tv_usec := atoi "50" * 1000 } ∧
    select_timeouts (main argv_timeout getopt_timeout env_linux).trace
        = [{ tv_sec := 0, tv_usec := 50000 }, { tv_sec := 0, tv_usec := 0 }] := by
  refine ⟨rfl, by decide, by decide⟩

end Toctoc
